import Mathlib

/-!
# FluidSynth unit conversions (`src/utils/fluid_conv.c`)

A shallow embedding of the conversion tables and conversion functions of
`fluid_conv.c`, and theorems about them.

Modelling conventions.

* `fluid_real_t` (a `float` or `double` typedef) is a type parameter `α` carrying
  an ordered field with a floor function; infinities and NaN are not modelled.
  The control flow of every conversion function is executable at `α = ℚ`.
* Rounding is modelled where it decides which table entry is read: the two
  sums `cents + 300` and `c + 500` are rounded to the format of `fluid_real_t`
  (`toFluidReal`, round to nearest, ties to even) before the cast to `int`.
  The subtractions `cents - start` of a band start from an input of that band
  are exact in floating point, and so is the negation of `c`; they are not
  rounded.  The values read from the tables and their products are exact
  reals: rounding of `pow`, `log`, `sin` and of the final multiplication is
  not modelled.
* The table builder uses `pow`, `log` and `sin`; it is stated over `ℝ` with
  `Real.rpow`, `Real.log` and `Real.sin`.
* The process-wide tables are an explicit state `ConvTables`, threaded through
  `fluid_conversion_config`.
* A table read `tab[(int) v]` returns `none` outside the bounds of the array, so
  every table-backed conversion returns an `Option`.
* A C `int` flag (`left`) is an `Int`, tested against zero as C does.
-/

namespace FluidConv

/-! ## Constants and state -/

/-- Size of the cents to Hz table, `#define FLUID_CENTS_HZ_SIZE 1200`. -/
def FLUID_CENTS_HZ_SIZE : Nat := 1200

/-- Size of the concave and convex tables, `#define FLUID_VEL_CB_SIZE 128`. -/
def FLUID_VEL_CB_SIZE : Nat := 128

/-- Size of the centibel to amplitude table, `#define FLUID_CB_AMP_SIZE 1441`. -/
def FLUID_CB_AMP_SIZE : Nat := 1441

/-- Size of the pan table, `#define FLUID_PAN_SIZE 1002`. -/
def FLUID_PAN_SIZE : Nat := 1002

/-- The five static conversion tables of the module. -/
structure ConvTables (α : Type) where
  fluid_ct2hz_tab : Array α
  fluid_cb2amp_tab : Array α
  fluid_concave_tab : Array α
  fluid_convex_tab : Array α
  fluid_pan_tab : Array α

/-- The tables before `fluid_conversion_config` has run: static storage of the
declared sizes, zero-initialised (the pan table in its run-time build mode). -/
def initTables (α : Type) [Zero α] : ConvTables α where
  fluid_ct2hz_tab := mkArray FLUID_CENTS_HZ_SIZE 0
  fluid_cb2amp_tab := mkArray FLUID_CB_AMP_SIZE 0
  fluid_concave_tab := mkArray FLUID_VEL_CB_SIZE 0
  fluid_convex_tab := mkArray FLUID_VEL_CB_SIZE 0
  fluid_pan_tab := mkArray FLUID_PAN_SIZE 0

/-- The C loop `for (i = lo; i < hi; i++) body`, as a fold of the body over the
state, with `i` running through `lo, lo + 1, ..., hi - 1`. -/
def forLoop {σ : Type} (lo hi : Nat) (body : Nat → σ → σ) (s : σ) : σ :=
  (List.range' lo (hi - lo)).foldl (fun st i => body i st) s

/-- The C conversion `(int) x` of a real number: truncation toward zero. -/
def toInt {α : Type} [LinearOrderedField α] [FloorRing α] (x : α) : Int :=
  if 0 ≤ x then ⌊x⌋ else ⌈x⌉

/-- Modelled from the spec: the number of significant bits of `fluid_real_t`.
The spec calls the inputs and outputs "floating-point scalars"; the typedef is
in a header that is not among the sources, and this is the `double` of the
default build, with 53 significant bits. -/
def FLUID_REAL_MANT_DIG : Nat := 53

/-- Rounding of a real number to an integer, to nearest with ties to even. -/
def roundHalfEven {α : Type} [LinearOrderedField α] [FloorRing α] (q : α) : Int :=
  let f := ⌊q⌋
  let r := q - (f : α)
  if r < 1 / 2 then f else if 1 / 2 < r then f + 1 else if f % 2 = 0 then f else f + 1

/-- The result of a `fluid_real_t` operation whose exact value is `x`: the
nearest number with `FLUID_REAL_MANT_DIG` significant bits, ties to even.  With
`2 ^ e ≤ |x| < 2 ^ (e + 1)` the spacing of the format at `x` is
`2 ^ (e - (FLUID_REAL_MANT_DIG - 1))`.  Overflow and subnormal numbers are not
modelled; the sums rounded here are below 1200 in size. -/
def toFluidReal {α : Type} [LinearOrderedField α] [FloorRing α] (x : α) : α :=
  if x = 0 then 0
  else
    let e : Int := Int.log 2 |x|
    let ulp : α := (2 : α) ^ (e - ((FLUID_REAL_MANT_DIG : Int) - 1))
    (roundHalfEven (x / ulp) : α) * ulp

/-- The table read `tab[i]` for a C `int` index; `none` outside the array. -/
def tabGet {α : Type} (tab : Array α) (i : Int) : Option α :=
  if 0 ≤ i then tab[i.toNat]? else none

/-! ## The table builder -/

/-- The macro `FLUID_PAN_TAB(_i)`: `FSIN((M_PI / 2.0 / (FLUID_PAN_SIZE - 1.0)) * (_i))`. -/
noncomputable def FLUID_PAN_TAB (i : Nat) : ℝ :=
  Real.sin ((Real.pi / 2 / ((FLUID_PAN_SIZE : ℝ) - 1)) * (i : ℝ))

/-- The first loop of `fluid_conversion_config`: the cents to Hz table. -/
noncomputable def config_ct2hz (s : ConvTables ℝ) : ConvTables ℝ :=
  forLoop 0 FLUID_CENTS_HZ_SIZE
    (fun i st => { st with
      fluid_ct2hz_tab := st.fluid_ct2hz_tab.setD i ((2 : ℝ) ^ ((i : ℝ) / 1200)) }) s

/-- The second loop of `fluid_conversion_config`: centibels to amplitude. -/
noncomputable def config_cb2amp (s : ConvTables ℝ) : ConvTables ℝ :=
  forLoop 0 FLUID_CB_AMP_SIZE
    (fun i st => { st with
      fluid_cb2amp_tab := st.fluid_cb2amp_tab.setD i ((10 : ℝ) ^ ((i : ℝ) / (-200))) }) s

/-- The pinned boundary entries of the concave and convex tables. -/
def config_curve_ends {α : Type} [Zero α] [One α] (s : ConvTables α) : ConvTables α :=
  let s1 := { s with fluid_concave_tab := s.fluid_concave_tab.setD 0 0 }
  let s2 := { s1 with
    fluid_concave_tab := s1.fluid_concave_tab.setD (FLUID_VEL_CB_SIZE - 1) 1 }
  let s3 := { s2 with fluid_convex_tab := s2.fluid_convex_tab.setD 0 0 }
  { s3 with fluid_convex_tab := s3.fluid_convex_tab.setD (FLUID_VEL_CB_SIZE - 1) 1 }

/-- The value `x` computed in the body of the curve loop, for the peak
attenuation `peak` (the constant `FLUID_PEAK_ATTENUATION` of the engine). -/
noncomputable def curve_x (peak : ℝ) (i : Nat) : ℝ :=
  (-200 / peak) * 2 * Real.log ((i : ℝ) / ((FLUID_VEL_CB_SIZE - 1 : Nat) : ℝ)) / Real.log 10

/-- The third loop of `fluid_conversion_config`: interior entries of the convex
and concave tables. -/
noncomputable def config_curves (peak : ℝ) (s : ConvTables ℝ) : ConvTables ℝ :=
  forLoop 1 (FLUID_VEL_CB_SIZE - 1)
    (fun i st =>
      let x := curve_x peak i
      let st1 := { st with fluid_convex_tab := st.fluid_convex_tab.setD i (1 - x) }
      { st1 with
        fluid_concave_tab := st1.fluid_concave_tab.setD ((FLUID_VEL_CB_SIZE - 1) - i) x }) s

/-- The last loop of `fluid_conversion_config` (run-time build of the pan
table): `x = M_PI / 2.0 / (FLUID_PAN_SIZE - 1.0)`, then `tab[i] = sin(i * x)`. -/
noncomputable def config_pan (s : ConvTables ℝ) : ConvTables ℝ :=
  let x : ℝ := Real.pi / 2 / ((FLUID_PAN_SIZE : ℝ) - 1)
  forLoop 0 FLUID_PAN_SIZE
    (fun i st => { st with fluid_pan_tab := st.fluid_pan_tab.setD i (Real.sin ((i : ℝ) * x)) }) s

/-- The initialisation routine `fluid_conversion_config`, as a state
transformer; `peak` is the constant `FLUID_PEAK_ATTENUATION`, which the file
takes from a header. -/
noncomputable def fluid_conversion_config (peak : ℝ) (s : ConvTables ℝ) : ConvTables ℝ :=
  config_pan (config_curves peak (config_curve_ends (config_cb2amp (config_ct2hz s))))

/-- The tables as the conversion functions see them: `fluid_conversion_config`
run once on the zero-initialised static storage. -/
noncomputable def builtTables (peak : ℝ) : ConvTables ℝ :=
  fluid_conversion_config peak (initTables ℝ)

/-! ## The conversion functions -/

section Conversions

variable {α : Type} [LinearOrderedField α] [FloorRing α]

/-- The function `fluid_ct2hz_real`: cents to Hz through the octave table. -/
def fluid_ct2hz_real (T : ConvTables α) (cents : α) : Option α :=
  if cents < 0 then some 1
  else if cents < 900 then
    (tabGet T.fluid_ct2hz_tab (toInt (toFluidReal (cents + 300)))).map (fun t => 6.875 * t)
  else if cents < 2100 then
    (tabGet T.fluid_ct2hz_tab (toInt (cents - 900))).map (fun t => 13.75 * t)
  else if cents < 3300 then
    (tabGet T.fluid_ct2hz_tab (toInt (cents - 2100))).map (fun t => 27.5 * t)
  else if cents < 4500 then
    (tabGet T.fluid_ct2hz_tab (toInt (cents - 3300))).map (fun t => 55.0 * t)
  else if cents < 5700 then
    (tabGet T.fluid_ct2hz_tab (toInt (cents - 4500))).map (fun t => 110.0 * t)
  else if cents < 6900 then
    (tabGet T.fluid_ct2hz_tab (toInt (cents - 5700))).map (fun t => 220.0 * t)
  else if cents < 8100 then
    (tabGet T.fluid_ct2hz_tab (toInt (cents - 6900))).map (fun t => 440.0 * t)
  else if cents < 9300 then
    (tabGet T.fluid_ct2hz_tab (toInt (cents - 8100))).map (fun t => 880.0 * t)
  else if cents < 10500 then
    (tabGet T.fluid_ct2hz_tab (toInt (cents - 9300))).map (fun t => 1760.0 * t)
  else if cents < 11700 then
    (tabGet T.fluid_ct2hz_tab (toInt (cents - 10500))).map (fun t => 3520.0 * t)
  else if cents < 12900 then
    (tabGet T.fluid_ct2hz_tab (toInt (cents - 11700))).map (fun t => 7040.0 * t)
  else if cents < 14100 then
    (tabGet T.fluid_ct2hz_tab (toInt (cents - 12900))).map (fun t => 14080.0 * t)
  else some 1

/-- The function `fluid_ct2hz`: the filter cutoff limit, then `fluid_ct2hz_real`. -/
def fluid_ct2hz (T : ConvTables α) (cents : α) : Option α :=
  let cents := if cents ≥ 13500 then 13500 else if cents < 1500 then 1500 else cents
  fluid_ct2hz_real T cents

/-- The function `fluid_cb2amp`: centibels of attenuation to linear amplitude. -/
def fluid_cb2amp (T : ConvTables α) (cb : α) : Option α :=
  if cb < 0 then some 1
  else if cb ≥ (FLUID_CB_AMP_SIZE : α) then some 0
  else tabGet T.fluid_cb2amp_tab (toInt cb)

/-- The function `fluid_pan`: pan position to channel gain. -/
def fluid_pan (T : ConvTables α) (c : α) (left : Int) : Option α :=
  let c := if left ≠ 0 then -c else c
  if c ≤ -500 then some 0
  else if c ≥ 500 then some 1
  else tabGet T.fluid_pan_tab (toInt (toFluidReal (c + 500)))

/-- The function `fluid_balance`: attenuation of one channel for a balance. -/
def fluid_balance (T : ConvTables α) (balance : α) (left : Int) : Option α :=
  if balance = 0 then some 1
  else if (left ≠ 0 ∧ balance < 0) ∨ (¬ left ≠ 0 ∧ balance > 0) then some 1
  else
    let balance := if balance < 0 then -balance else balance
    fluid_cb2amp T balance

/-- The function `fluid_concave`: the concave curve, through its table. -/
def fluid_concave (T : ConvTables α) (val : α) : Option α :=
  if val < 0 then some 0
  else if val ≥ (FLUID_VEL_CB_SIZE : α) then some 1
  else tabGet T.fluid_concave_tab (toInt val)

/-- The function `fluid_convex`: the convex curve, through its table. -/
def fluid_convex (T : ConvTables α) (val : α) : Option α :=
  if val < 0 then some 0
  else if val ≥ (FLUID_VEL_CB_SIZE : α) then some 1
  else tabGet T.fluid_convex_tab (toInt val)

end Conversions

/-! ## Conversions without a table

These call `pow` and `log` directly; they are stated over `ℝ`.  `Real.log` of a
non-positive number is a conventional value where the C `log` is not finite, so
statements about `fluid_hz2ct` are meaningful for positive frequencies. -/

/-- The function `fluid_tc2sec_delay`: timecents to seconds, delay times. -/
noncomputable def fluid_tc2sec_delay (tc : ℝ) : ℝ :=
  if tc ≤ -32768 then 0
  else
    let tc := if tc < -12000 then -12000 else tc
    let tc := if tc > 5000 then 5000 else tc
    (2 : ℝ) ^ (tc / 1200)

/-- The function `fluid_tc2sec_attack`: timecents to seconds, attack times. -/
noncomputable def fluid_tc2sec_attack (tc : ℝ) : ℝ :=
  if tc ≤ -32768 then 0
  else
    let tc := if tc < -12000 then -12000 else tc
    let tc := if tc > 8000 then 8000 else tc
    (2 : ℝ) ^ (tc / 1200)

/-- The function `fluid_tc2sec`: timecents to seconds, no range checking. -/
noncomputable def fluid_tc2sec (tc : ℝ) : ℝ :=
  (2 : ℝ) ^ (tc / 1200)

/-- The function `fluid_tc2sec_release`: timecents to seconds, release times. -/
noncomputable def fluid_tc2sec_release (tc : ℝ) : ℝ :=
  if tc ≤ -32768 then 0
  else
    let tc := if tc < -12000 then -12000 else tc
    let tc := if tc > 8000 then 8000 else tc
    (2 : ℝ) ^ (tc / 1200)

/-- The function `fluid_act2hz`: absolute cents to Hertz. -/
noncomputable def fluid_act2hz (c : ℝ) : ℝ :=
  8.176 * (2 : ℝ) ^ (c / 1200)

/-- The function `fluid_hz2ct`: Hertz to cents; `M_LN2` is `log 2`. -/
noncomputable def fluid_hz2ct (f : ℝ) : ℝ :=
  6900 + 1200 * Real.log (f / 440) / Real.log 2

/-- The arrays of a table state have their declared sizes, as the C types
`fluid_real_t tab[SIZE]` say. -/
def WellSized {α : Type} (T : ConvTables α) : Prop :=
  T.fluid_ct2hz_tab.size = FLUID_CENTS_HZ_SIZE ∧
  T.fluid_cb2amp_tab.size = FLUID_CB_AMP_SIZE ∧
  T.fluid_concave_tab.size = FLUID_VEL_CB_SIZE ∧
  T.fluid_convex_tab.size = FLUID_VEL_CB_SIZE ∧
  T.fluid_pan_tab.size = FLUID_PAN_SIZE

/-! ## Definitions taken from the specification -/

/-- Modelled from the spec: the peak-attenuation constant
`FLUID_PEAK_ATTENUATION`, "a fixed physical reference value defined by the
engine"; its header is not among the sources, and the value is the engine's
960 centibels. -/
def FLUID_PEAK_ATTENUATION : ℝ := 960

/-- The clamp of the specification, in its words: values below `lo` go to `lo`,
values at or above `hi` go to `hi`, every other value is kept. -/
def spec_clamp {α : Type} [LinearOrderedField α] (x lo hi : α) : α :=
  if x < lo then lo else if hi ≤ x then hi else x

/-! ## Loops and table writes -/

theorem forLoop_of_ge {σ : Type} (lo hi : Nat) (body : Nat → σ → σ) (s : σ) (h : hi ≤ lo) :
    forLoop lo hi body s = s := by
  have h0 : hi - lo = 0 := by omega
  simp [forLoop, h0]

theorem forLoop_succ {σ : Type} (lo hi : Nat) (body : Nat → σ → σ) (s : σ) (h : lo ≤ hi) :
    forLoop lo (hi + 1) body s = body hi (forLoop lo hi body s) := by
  have h1 : hi + 1 - lo = (hi - lo) + 1 := by omega
  have h2 : lo + (hi - lo) = hi := by omega
  simp [forLoop, h1, List.range'_concat, List.foldl_append, h2]

/-- Loop invariant rule for `forLoop`. -/
theorem forLoop_inv {σ : Type} (P : Nat → σ → Prop) (lo hi : Nat) (body : Nat → σ → σ) (s : σ)
    (hle : lo ≤ hi) (h0 : P lo s)
    (hstep : ∀ i st, lo ≤ i → i < hi → P i st → P (i + 1) (body i st)) :
    P hi (forLoop lo hi body s) := by
  induction hi with
  | zero =>
    have : lo = 0 := by omega
    subst this
    simpa [forLoop_of_ge] using h0
  | succ n ih =>
    rcases Nat.eq_or_lt_of_le hle with h | h
    · subst h
      simpa [forLoop_of_ge] using h0
    · have hn : lo ≤ n := by omega
      rw [forLoop_succ lo n body s hn]
      exact hstep n _ hn (by omega)
        (ih hn (fun i st h1 h2 hp => hstep i st h1 (by omega) hp))

/-- A loop that rewrites one component of the state through `put` and `get`
is the loop on that component alone. -/
theorem forLoop_lift {σ τ : Type} (put : σ → τ → σ) (get : σ → τ)
    (hpp : ∀ s a b, put (put s a) b = put s b) (hgp : ∀ s a, get (put s a) = a)
    (hpg : ∀ s, put s (get s) = s) (g : Nat → τ → τ) (lo hi : Nat) (s : σ) :
    forLoop lo hi (fun i st => put st (g i (get st))) s = put s (forLoop lo hi g (get s)) := by
  induction hi with
  | zero => simp [forLoop_of_ge, hpg]
  | succ n ih =>
    by_cases h : lo ≤ n
    · rw [forLoop_succ lo n _ s h, forLoop_succ lo n g _ h, ih, hpp, hgp]
    · rw [forLoop_of_ge lo (n + 1) _ s (by omega), forLoop_of_ge lo (n + 1) g _ (by omega), hpg]

theorem forLoop_setD_size {β : Type} (f : Nat → β) (lo hi : Nat) (a : Array β) :
    (forLoop lo hi (fun i t => t.setD i (f i)) a).size = a.size := by
  induction hi with
  | zero => simp [forLoop_of_ge]
  | succ n ih =>
    by_cases h : lo ≤ n
    · rw [forLoop_succ lo n _ a h, Array.size_setD, ih]
    · rw [forLoop_of_ge lo (n + 1) _ a (by omega)]

theorem getElem?_setD {β : Type} (a : Array β) (i j : Nat) (v : β) :
    (a.setD i v)[j]? = if i = j ∧ j < a.size then some v else a[j]? := by
  unfold Array.setD
  by_cases hi : i < a.size
  · simp only [hi, dite_true, Array.get?_set]
    by_cases hij : i = j
    · subst hij
      simp [hi]
    · simp [hij]
  · simp only [hi, dite_false]
    by_cases hij : i = j
    · subst hij
      simp [hi]
    · simp [hij]

/-- After `for (i = lo; i < hi; i++) tab[i] = f i`, entry `j` holds `f j` when
`lo ≤ j < hi` is inside the array, and its old value otherwise. -/
theorem forLoop_setD_getElem? {β : Type} (f : Nat → β) (lo hi : Nat) (a : Array β) (j : Nat) :
    (forLoop lo hi (fun i t => t.setD i (f i)) a)[j]? =
      if lo ≤ j ∧ j < hi ∧ j < a.size then some (f j) else a[j]? := by
  induction hi with
  | zero => simp [forLoop_of_ge]
  | succ n ih =>
    by_cases h : lo ≤ n
    · rw [forLoop_succ lo n _ a h, getElem?_setD, ih, forLoop_setD_size]
      by_cases h1 : n = j
      · subst h1
        by_cases h2 : n < a.size
        · simp [h, h2]
        · simp [h2]
      · by_cases h3 : lo ≤ j ∧ j < n ∧ j < a.size
        · have : lo ≤ j ∧ j < n + 1 ∧ j < a.size := ⟨h3.1, by omega, h3.2.2⟩
          simp [h1, h3, this]
        · have : ¬ (lo ≤ j ∧ j < n + 1 ∧ j < a.size) := by
            intro hh
            exact h3 ⟨hh.1, by omega, hh.2.2⟩
          simp [h1, h3, this]
    · rw [forLoop_of_ge lo (n + 1) _ a (by omega)]
      have : ¬ (lo ≤ j ∧ j < n + 1 ∧ j < a.size) := by
        intro hh
        omega
      simp [this]

/-! ## The stages of the builder, table by table -/

theorem config_ct2hz_eq (s : ConvTables ℝ) :
    config_ct2hz s = { s with
      fluid_ct2hz_tab := forLoop 0 FLUID_CENTS_HZ_SIZE
        (fun i t => t.setD i ((2 : ℝ) ^ ((i : ℝ) / 1200))) s.fluid_ct2hz_tab } := by
  unfold config_ct2hz
  have h := forLoop_lift (fun st a => { st with fluid_ct2hz_tab := a }) (fun st => st.fluid_ct2hz_tab)
    (fun _ _ _ => rfl) (fun _ _ => rfl) (fun _ => rfl)
    (fun i t => t.setD i ((2 : ℝ) ^ ((i : ℝ) / 1200))) 0 FLUID_CENTS_HZ_SIZE s
  exact h

theorem config_cb2amp_eq (s : ConvTables ℝ) :
    config_cb2amp s = { s with
      fluid_cb2amp_tab := forLoop 0 FLUID_CB_AMP_SIZE
        (fun i t => t.setD i ((10 : ℝ) ^ ((i : ℝ) / (-200)))) s.fluid_cb2amp_tab } := by
  unfold config_cb2amp
  have h := forLoop_lift (fun st a => { st with fluid_cb2amp_tab := a }) (fun st => st.fluid_cb2amp_tab)
    (fun _ _ _ => rfl) (fun _ _ => rfl) (fun _ => rfl)
    (fun i t => t.setD i ((10 : ℝ) ^ ((i : ℝ) / (-200)))) 0 FLUID_CB_AMP_SIZE s
  exact h

theorem config_pan_eq (s : ConvTables ℝ) :
    config_pan s = { s with
      fluid_pan_tab := forLoop 0 FLUID_PAN_SIZE
        (fun i t => t.setD i (Real.sin ((i : ℝ) * (Real.pi / 2 / ((FLUID_PAN_SIZE : ℝ) - 1)))))
        s.fluid_pan_tab } := by
  unfold config_pan
  have h := forLoop_lift (fun st a => { st with fluid_pan_tab := a }) (fun st => st.fluid_pan_tab)
    (fun _ _ _ => rfl) (fun _ _ => rfl) (fun _ => rfl)
    (fun i t => t.setD i (Real.sin ((i : ℝ) * (Real.pi / 2 / ((FLUID_PAN_SIZE : ℝ) - 1)))))
    0 FLUID_PAN_SIZE s
  exact h

theorem config_curves_eq (peak : ℝ) (s : ConvTables ℝ) :
    config_curves peak s = { s with
      fluid_convex_tab := forLoop 1 (FLUID_VEL_CB_SIZE - 1)
        (fun i t => t.setD i (1 - curve_x peak i)) s.fluid_convex_tab
      fluid_concave_tab := forLoop 1 (FLUID_VEL_CB_SIZE - 1)
        (fun i t => t.setD ((FLUID_VEL_CB_SIZE - 1) - i) (curve_x peak i)) s.fluid_concave_tab } := by
  unfold config_curves
  refine forLoop_inv
    (fun n st => st = { s with
      fluid_convex_tab := forLoop 1 n (fun i t => t.setD i (1 - curve_x peak i)) s.fluid_convex_tab
      fluid_concave_tab := forLoop 1 n
        (fun i t => t.setD ((FLUID_VEL_CB_SIZE - 1) - i) (curve_x peak i)) s.fluid_concave_tab })
    1 (FLUID_VEL_CB_SIZE - 1) _ s (by decide) ?_ ?_
  · simp [forLoop_of_ge]
  · intro i st h1 _ hst
    subst hst
    simp only [forLoop_succ 1 i _ _ h1]

/-! ## The built tables -/

/-- Entry `j` of the built cents to Hz table is `2 ^ (j / 1200)`. -/
theorem built_ct2hz_tab (peak : ℝ) (j : Nat) (hj : j < 1200) :
    (builtTables peak).fluid_ct2hz_tab[j]? = some ((2 : ℝ) ^ ((j : ℝ) / 1200)) := by
  simp only [builtTables, fluid_conversion_config, config_pan_eq, config_curves_eq,
    config_curve_ends, config_cb2amp_eq, config_ct2hz_eq]
  rw [forLoop_setD_getElem?]
  simp [initTables, FLUID_CENTS_HZ_SIZE, hj]

/-- Entry `j` of the built centibel table is `10 ^ (j / -200)`. -/
theorem built_cb2amp_tab (peak : ℝ) (j : Nat) (hj : j < 1441) :
    (builtTables peak).fluid_cb2amp_tab[j]? = some ((10 : ℝ) ^ ((j : ℝ) / (-200))) := by
  simp only [builtTables, fluid_conversion_config, config_pan_eq, config_curves_eq,
    config_curve_ends, config_cb2amp_eq, config_ct2hz_eq]
  rw [forLoop_setD_getElem?]
  simp [initTables, FLUID_CB_AMP_SIZE, hj]

/-- Entry `j` of the built pan table is `sin (j * (π / 2 / 1001))`, the value of
the macro `FLUID_PAN_TAB` at `j`. -/
theorem built_pan_tab (peak : ℝ) (j : Nat) (hj : j < 1002) :
    (builtTables peak).fluid_pan_tab[j]? = some (FLUID_PAN_TAB j) := by
  simp only [builtTables, fluid_conversion_config, config_pan_eq, config_curves_eq,
    config_curve_ends, config_cb2amp_eq, config_ct2hz_eq]
  rw [forLoop_setD_getElem?]
  simp [initTables, FLUID_PAN_SIZE, FLUID_PAN_TAB, hj, mul_comm]

/-- After `for (i = lo; i < hi; i++) tab[N - i] = f i` with `hi ≤ N + 1`, entry
`j` holds `f (N - j)` when `N - hi < j ≤ N - lo` is inside the array, and its
old value otherwise. -/
theorem forLoop_setD_rev_getElem? {β : Type} (f : Nat → β) (N lo hi : Nat) (a : Array β)
    (j : Nat) (hN : hi ≤ N + 1) :
    (forLoop lo hi (fun i t => t.setD (N - i) (f i)) a)[j]? =
      if N < j + hi ∧ j + lo ≤ N ∧ j < a.size then some (f (N - j)) else a[j]? := by
  induction hi with
  | zero =>
    have : ¬ (N < j ∧ j + lo ≤ N ∧ j < a.size) := by
      intro hh
      omega
    simp [forLoop_of_ge, this]
  | succ n ih =>
    have ih := ih (by omega)
    by_cases h : lo ≤ n
    · have hsize : (forLoop lo n (fun i t => t.setD (N - i) (f i)) a).size = a.size := by
        refine forLoop_inv (fun _ t => t.size = a.size) lo n _ a h rfl ?_
        intro i t _ _ ht
        simpa using ht
      rw [forLoop_succ lo n _ a h, getElem?_setD, ih, hsize]
      by_cases h1 : N - n = j
      · have hnj : N - j = n := by omega
        by_cases h2 : j < a.size
        · have : N < j + (n + 1) ∧ j + lo ≤ N ∧ j < a.size := ⟨by omega, by omega, h2⟩
          simp [h1, h2, this, hnj]
        · have h3 : ¬ (N < j + (n + 1) ∧ j + lo ≤ N ∧ j < a.size) := fun hh => h2 hh.2.2
          have h4 : ¬ (N < j + n ∧ j + lo ≤ N ∧ j < a.size) := fun hh => h2 hh.2.2
          simp [h2, h3, h4]
      · by_cases h3 : N < j + n ∧ j + lo ≤ N ∧ j < a.size
        · have : N < j + (n + 1) ∧ j + lo ≤ N ∧ j < a.size := ⟨by omega, h3.2.1, h3.2.2⟩
          simp [h1, h3, this]
        · have : ¬ (N < j + (n + 1) ∧ j + lo ≤ N ∧ j < a.size) := by
            intro hh
            apply h3
            exact ⟨by omega, hh.2.1, hh.2.2⟩
          simp [h1, h3, this]
    · rw [forLoop_of_ge lo (n + 1) _ a (by omega)]
      have : ¬ (N < j + (n + 1) ∧ j + lo ≤ N ∧ j < a.size) := by
        intro hh
        omega
      simp [this]

/-- The built convex table: entries 0 and 127 are the pinned 0 and 1, and an
interior entry `1 ≤ j ≤ 126` is `1 - x` for the loop value `x` at `j`. -/
theorem built_convex_tab (peak : ℝ) (j : Nat) (hj : j < 128) :
    (builtTables peak).fluid_convex_tab[j]? =
      some (if j = 0 then 0 else if j = 127 then 1 else 1 - curve_x peak j) := by
  simp only [builtTables, fluid_conversion_config, config_pan_eq, config_curves_eq,
    config_curve_ends, config_cb2amp_eq, config_ct2hz_eq]
  rw [forLoop_setD_getElem?]
  simp only [Array.size_setD, getElem?_setD, initTables, Array.size_mkArray, FLUID_VEL_CB_SIZE]
  by_cases h0 : j = 0
  · subst h0
    simp
  · by_cases h127 : j = 127
    · subst h127
      simp
    · have h1 : 1 ≤ j ∧ j < 128 - 1 ∧ j < 128 := ⟨by omega, by omega, hj⟩
      simp [h0, h127, h1]

/-- The built concave table: entries 0 and 127 are the pinned 0 and 1, and an
interior entry `1 ≤ j ≤ 126` is the loop value `x` at `127 - j`. -/
theorem built_concave_tab (peak : ℝ) (j : Nat) (hj : j < 128) :
    (builtTables peak).fluid_concave_tab[j]? =
      some (if j = 0 then 0 else if j = 127 then 1 else curve_x peak (127 - j)) := by
  simp only [builtTables, fluid_conversion_config, config_pan_eq, config_curves_eq,
    config_curve_ends, config_cb2amp_eq, config_ct2hz_eq]
  rw [forLoop_setD_rev_getElem? _ _ _ _ _ _ (by decide)]
  simp only [Array.size_setD, getElem?_setD, initTables, Array.size_mkArray, FLUID_VEL_CB_SIZE]
  by_cases h0 : j = 0
  · subst h0
    simp
  · by_cases h127 : j = 127
    · subst h127
      simp
    · have h1 : 128 - 1 < j + (128 - 1) ∧ j + 1 ≤ 128 - 1 ∧ j < 128 :=
        ⟨by omega, by omega, hj⟩
      simp [h0, h127, h1]

/-! ## Sizes of the tables -/

theorem forLoop_setD_idx_size {β : Type} (idx : Nat → Nat) (f : Nat → β) (lo hi : Nat)
    (a : Array β) : (forLoop lo hi (fun i t => t.setD (idx i) (f i)) a).size = a.size := by
  induction hi with
  | zero => simp [forLoop_of_ge]
  | succ n ih =>
    by_cases h : lo ≤ n
    · rw [forLoop_succ lo n _ a h, Array.size_setD, ih]
    · rw [forLoop_of_ge lo (n + 1) _ a (by omega)]

/-- The builder `fluid_conversion_config` keeps the size of every table. -/
theorem config_sizes (peak : ℝ) (s : ConvTables ℝ) :
    (fluid_conversion_config peak s).fluid_ct2hz_tab.size = s.fluid_ct2hz_tab.size ∧
    (fluid_conversion_config peak s).fluid_cb2amp_tab.size = s.fluid_cb2amp_tab.size ∧
    (fluid_conversion_config peak s).fluid_concave_tab.size = s.fluid_concave_tab.size ∧
    (fluid_conversion_config peak s).fluid_convex_tab.size = s.fluid_convex_tab.size ∧
    (fluid_conversion_config peak s).fluid_pan_tab.size = s.fluid_pan_tab.size := by
  simp only [fluid_conversion_config, config_pan_eq, config_curves_eq, config_curve_ends,
    config_cb2amp_eq, config_ct2hz_eq]
  refine ⟨?_, ?_, ?_, ?_, ?_⟩
  · exact forLoop_setD_idx_size (fun i => i) _ _ _ _
  · exact forLoop_setD_idx_size (fun i => i) _ _ _ _
  · rw [forLoop_setD_idx_size (fun i => FLUID_VEL_CB_SIZE - 1 - i)]
    simp
  · rw [forLoop_setD_idx_size (fun i => i)]
    simp
  · exact forLoop_setD_idx_size (fun i => i) _ _ _ _

theorem initTables_wellSized (α : Type) [Zero α] : WellSized (initTables α) := by
  simp [WellSized, initTables]

/-- The builder keeps a well-sized state well-sized. -/
theorem config_wellSized (peak : ℝ) (s : ConvTables ℝ) (hs : WellSized s) :
    WellSized (fluid_conversion_config peak s) := by
  obtain ⟨h1, h2, h3, h4, h5⟩ := config_sizes peak s
  obtain ⟨g1, g2, g3, g4, g5⟩ := hs
  exact ⟨h1.trans g1, h2.trans g2, h3.trans g3, h4.trans g4, h5.trans g5⟩

theorem builtTables_wellSized (peak : ℝ) : WellSized (builtTables peak) :=
  config_wellSized peak _ (initTables_wellSized ℝ)

/-! ## Rounding to the format of `fluid_real_t` -/

section Rounding

variable {α : Type} [LinearOrderedField α] [FloorRing α]

theorem roundHalfEven_intCast (m : Int) : roundHalfEven (m : α) = m := by
  simp [roundHalfEven]

/-- A tie above an odd integer rounds up, to the even neighbour. -/
theorem roundHalfEven_tie_odd (m : Int) (hm : m % 2 = 1) :
    roundHalfEven ((m : α) + 1 / 2) = m + 1 := by
  have hfl : ⌊(m : α) + 1 / 2⌋ = m := by
    rw [Int.floor_eq_iff]
    constructor
    · linarith [(by norm_num : (0 : α) ≤ 1 / 2)]
    · linarith [(by norm_num : (1 / 2 : α) < 1)]
  have hne : ¬ m % 2 = 0 := by omega
  have hr : (m : α) + 1 / 2 - (m : α) = 1 / 2 := by ring
  unfold roundHalfEven
  simp only [hfl, hr, lt_irrefl, if_false, hne]

/-- Rounding to an integer moves a number by at most one half. -/
theorem roundHalfEven_bounds (q : α) :
    q - 1 / 2 ≤ (roundHalfEven q : α) ∧ (roundHalfEven q : α) ≤ q + 1 / 2 := by
  have h1 : (⌊q⌋ : α) ≤ q := Int.floor_le q
  have h2 : q < (⌊q⌋ : α) + 1 := Int.lt_floor_add_one q
  unfold roundHalfEven
  simp only []
  by_cases c1 : q - (⌊q⌋ : α) < 1 / 2
  · rw [if_pos c1]
    constructor <;> linarith
  · rw [if_neg c1]
    by_cases c2 : 1 / 2 < q - (⌊q⌋ : α)
    · rw [if_pos c2]
      push_cast
      constructor <;> linarith
    · rw [if_neg c2]
      have c3 : q - (⌊q⌋ : α) = 1 / 2 := le_antisymm (not_lt.mp c2) (not_lt.mp c1)
      by_cases c4 : ⌊q⌋ % 2 = 0
      · rw [if_pos c4]
        constructor <;> linarith
      · rw [if_neg c4]
        push_cast
        constructor <;> linarith

theorem roundHalfEven_nonneg (q : α) (h : 0 ≤ q) : 0 ≤ roundHalfEven q := by
  have h1 : 0 ≤ ⌊q⌋ := Int.floor_nonneg.mpr h
  unfold roundHalfEven
  simp only []
  split_ifs <;> omega

/-- The rounding of a positive number inside the binade `[2 ^ e, 2 ^ (e + 1))`:
the spacing of the format there is `2 ^ (e - 52)`. -/
theorem toFluidReal_of_binade (x : α) (e : Int) (h1 : (2 : α) ^ e ≤ x)
    (h2 : x < (2 : α) ^ (e + 1)) :
    toFluidReal x = (roundHalfEven (x / (2 : α) ^ (e - 52)) : α) * (2 : α) ^ (e - 52) := by
  have hpos : 0 < x := lt_of_lt_of_le (zpow_pos (by norm_num) e) h1
  have hlog : Int.log 2 |x| = e := by
    rw [abs_of_pos hpos]
    apply le_antisymm
    · have : Int.log 2 x < e + 1 := by
        rw [← Int.lt_zpow_iff_log_lt (by norm_num) hpos]
        exact_mod_cast h2
      omega
    · rw [← Int.zpow_le_iff_le_log (by norm_num) hpos]
      exact_mod_cast h1
  unfold toFluidReal
  rw [if_neg (ne_of_gt hpos)]
  simp only [hlog, FLUID_REAL_MANT_DIG]
  norm_num

/-- A number of the binade that is an integer multiple of the spacing is
representable: rounding returns it. -/
theorem toFluidReal_of_multiple (x : α) (e m : Int) (h1 : (2 : α) ^ e ≤ x)
    (h2 : x < (2 : α) ^ (e + 1)) (hx : x = (m : α) * (2 : α) ^ (e - 52)) :
    toFluidReal x = x := by
  have hu : (0 : α) < (2 : α) ^ (e - 52) := zpow_pos (by norm_num) _
  rw [toFluidReal_of_binade x e h1 h2]
  have hq : x / (2 : α) ^ (e - 52) = (m : α) := by
    rw [hx, mul_div_assoc, div_self (ne_of_gt hu), mul_one]
  rw [hq, roundHalfEven_intCast, ← hx]

/-- A number of the binade half a spacing above an odd multiple of the spacing
is a tie; it rounds up to the even multiple. -/
theorem toFluidReal_of_tie (x : α) (e m : Int) (hm : m % 2 = 1) (h1 : (2 : α) ^ e ≤ x)
    (h2 : x < (2 : α) ^ (e + 1)) (hx : x = ((m : α) + 1 / 2) * (2 : α) ^ (e - 52)) :
    toFluidReal x = ((m : α) + 1) * (2 : α) ^ (e - 52) := by
  have hu : (0 : α) < (2 : α) ^ (e - 52) := zpow_pos (by norm_num) _
  rw [toFluidReal_of_binade x e h1 h2]
  have hq : x / (2 : α) ^ (e - 52) = (m : α) + 1 / 2 := by
    rw [hx, mul_div_assoc, div_self (ne_of_gt hu), mul_one]
  rw [hq, roundHalfEven_tie_odd m hm]
  push_cast
  ring

/-- Natural numbers below `2 ^ 53` are representable. -/
theorem toFluidReal_natCast (n : Nat) (hn : n < 2 ^ 53) : toFluidReal (n : α) = (n : α) := by
  by_cases h0 : n = 0
  · subst h0
    simp [toFluidReal]
  · have hlo : 2 ^ Nat.log 2 n ≤ n := Nat.pow_log_le_self 2 h0
    have hhi : n < 2 ^ (Nat.log 2 n + 1) := Nat.lt_pow_succ_log_self (by norm_num) n
    have hk : Nat.log 2 n < 53 := Nat.log_lt_of_lt_pow h0 hn
    obtain ⟨d, hd⟩ : ∃ d : Nat, Nat.log 2 n + d = 52 := ⟨52 - Nat.log 2 n, by omega⟩
    have h1 : (2 : α) ^ ((Nat.log 2 n : Nat) : Int) ≤ (n : α) := by
      rw [zpow_natCast]
      exact_mod_cast hlo
    have h2 : (n : α) < (2 : α) ^ (((Nat.log 2 n : Nat) : Int) + 1) := by
      have : (((Nat.log 2 n : Nat) : Int) + 1) = ((Nat.log 2 n + 1 : Nat) : Int) := by
        push_cast
        ring
      rw [this, zpow_natCast]
      exact_mod_cast hhi
    refine toFluidReal_of_multiple (n : α) _ ((n * 2 ^ d : Nat) : Int) h1 h2 ?_
    have hexp : (((Nat.log 2 n : Nat) : Int) - 52) = -((d : Nat) : Int) := by omega
    rw [hexp, zpow_neg, zpow_natCast]
    push_cast
    field_simp

/-- The rounding of a positive number is non-negative and exceeds the number by
at most the fraction `2 ^ (-53)` of it. -/
theorem toFluidReal_bounds (x : α) (hx : 0 < x) :
    0 ≤ toFluidReal x ∧ toFluidReal x ≤ x + x / 2 ^ 53 := by
  have h1 : (2 : α) ^ (Int.log 2 x) ≤ x := by
    have := Int.zpow_log_le_self (b := 2) (by norm_num) hx
    exact_mod_cast this
  have h2 : x < (2 : α) ^ (Int.log 2 x + 1) := by
    have := Int.lt_zpow_succ_log_self (b := 2) (by norm_num) x
    exact_mod_cast this
  have hu : (0 : α) < (2 : α) ^ (Int.log 2 x - 52) := zpow_pos (by norm_num) _
  have hsplit : (2 : α) ^ (Int.log 2 x - 52) = (2 : α) ^ (Int.log 2 x) / 2 ^ 52 := by
    rw [zpow_sub₀ (by norm_num)]
    norm_num
  rw [toFluidReal_of_binade x _ h1 h2]
  obtain ⟨_, hb⟩ := roundHalfEven_bounds (x / (2 : α) ^ (Int.log 2 x - 52))
  have hnn : (0 : α) ≤ (roundHalfEven (x / (2 : α) ^ (Int.log 2 x - 52)) : α) := by
    exact_mod_cast roundHalfEven_nonneg _ (div_nonneg hx.le hu.le)
  constructor
  · exact mul_nonneg hnn hu.le
  · calc (roundHalfEven (x / (2 : α) ^ (Int.log 2 x - 52)) : α) * (2 : α) ^ (Int.log 2 x - 52)
        ≤ (x / (2 : α) ^ (Int.log 2 x - 52) + 1 / 2) * (2 : α) ^ (Int.log 2 x - 52) :=
          mul_le_mul_of_nonneg_right hb hu.le
      _ = x + (2 : α) ^ (Int.log 2 x - 52) / 2 := by
          rw [add_mul, div_mul_cancel₀ _ (ne_of_gt hu)]
          ring
      _ ≤ x + x / 2 ^ 53 := by
          rw [hsplit]
          have : (2 : α) ^ (Int.log 2 x) / 2 ^ 52 / 2 ≤ x / 2 ^ 52 / 2 := by
            apply div_le_div_of_nonneg_right _ (by norm_num)
            exact div_le_div_of_nonneg_right h1 (by positivity)
          have e2 : x / 2 ^ 52 / 2 = x / 2 ^ 53 := by
            rw [div_div]
            norm_num
          linarith

end Rounding

/-! ### Three sums that round up to the next integer -/

/-- The sum `cents + 300` at `cents = 900 - 2 ^ (-43)` is a tie of the format;
it rounds to 1200. -/
theorem toFluidReal_sum_1200 : toFluidReal ((900 - 1 / 2 ^ 43 : ℝ) + 300) = 1200 := by
  rw [toFluidReal_of_tie _ 10 (1200 * 2 ^ 42 - 1) (by norm_num) (by norm_num) (by norm_num)
    (by norm_num)]
  norm_num

/-- The sum `cents + 300` at `cents = 400 - 2 ^ (-44)` rounds to 700. -/
theorem toFluidReal_sum_700 : toFluidReal ((400 - 1 / 2 ^ 44 : ℝ) + 300) = 700 := by
  rw [toFluidReal_of_tie _ 9 (700 * 2 ^ 43 - 1) (by norm_num) (by norm_num) (by norm_num)
    (by norm_num)]
  norm_num

/-- The sum `c + 500` at `c = -2 ^ (-45)` rounds to 500. -/
theorem toFluidReal_sum_500 : toFluidReal ((-(1 / 2 ^ 45) : ℝ) + 500) = 500 := by
  rw [toFluidReal_of_tie _ 8 (500 * 2 ^ 44 - 1) (by norm_num) (by norm_num) (by norm_num)
    (by norm_num)]
  norm_num

/-- The three inputs are numbers of the format. -/
theorem toFluidReal_inputs :
    toFluidReal (900 - 1 / 2 ^ 43 : ℝ) = 900 - 1 / 2 ^ 43 ∧
    toFluidReal (400 - 1 / 2 ^ 44 : ℝ) = 400 - 1 / 2 ^ 44 ∧
    toFluidReal (-(1 / 2 ^ 45) : ℝ) = -(1 / 2 ^ 45) := by
  refine ⟨?_, ?_, ?_⟩
  · exact toFluidReal_of_multiple _ 9 (900 * 2 ^ 43 - 1) (by norm_num) (by norm_num)
      (by norm_num)
  · exact toFluidReal_of_multiple _ 8 (400 * 2 ^ 44 - 1) (by norm_num) (by norm_num)
      (by norm_num)
  · have hx : (-(1 / 2 ^ 45) : ℝ) ≠ 0 := by norm_num
    have hlog : Int.log 2 |(-(1 / 2 ^ 45) : ℝ)| = -45 := by
      have : |(-(1 / 2 ^ 45) : ℝ)| = ((2 : Nat) : ℝ) ^ (-45 : Int) := by
        rw [abs_neg, abs_of_pos (by norm_num)]
        norm_num
      rw [this, Int.log_zpow (by norm_num)]
    unfold toFluidReal
    rw [if_neg hx]
    simp only [hlog, FLUID_REAL_MANT_DIG]
    have hq : (-(1 / 2 ^ 45) : ℝ) / (2 : ℝ) ^ ((-45 : Int) - (((53 : Nat) : Int) - 1)) =
        (((-(2 ^ 52) : Int)) : ℝ) := by
      norm_num
    rw [hq, roundHalfEven_intCast]
    norm_num

/-! ## Truncation and table reads -/

theorem toInt_of_nonneg {α : Type} [LinearOrderedField α] [FloorRing α] (x : α) (h : 0 ≤ x) :
    toInt x = ⌊x⌋ := by
  simp [toInt, h]

/-- A read at a truncated index `(int) x` with `0 ≤ x < n` is a read at `⌊x⌋`,
which is a natural number below `n`. -/
theorem tabGet_toInt {α : Type} [LinearOrderedField α] [FloorRing α] (tab : Array α) (x : α)
    (n : Nat) (h0 : 0 ≤ x) (h1 : x < (n : α)) :
    ∃ j : Nat, j < n ∧ (⌊x⌋ : Int) = (j : Int) ∧ tabGet tab (toInt x) = tab[j]? := by
  have hf : (0 : Int) ≤ ⌊x⌋ := Int.floor_nonneg.mpr h0
  have hlt : ⌊x⌋ < (n : Int) := by
    apply Int.floor_lt.mpr
    exact_mod_cast h1
  refine ⟨⌊x⌋.toNat, ?_, ?_, ?_⟩
  · omega
  · omega
  · simp [tabGet, toInt_of_nonneg x h0, hf]

/-- An octave band of `fluid_ct2hz_real` on the built table: with base
`b = 440 * 2 ^ k` and band start `off = 6900 + 1200 * k`, the band computes
`440 * 2 ^ ((⌊cents⌋ - 6900) / 1200)`. -/
theorem band_lookup (peak b : ℝ) (k off : Int) (cents x : ℝ)
    (hb : b = 440 * (2 : ℝ) ^ k) (hoff : off = 6900 + 1200 * k) (hx : x = cents - (off : ℝ))
    (h0 : 0 ≤ x) (h1 : x < 1200) :
    (tabGet (builtTables peak).fluid_ct2hz_tab (toInt x)).map (fun t => b * t) =
      some (440 * (2 : ℝ) ^ (((⌊cents⌋ : ℝ) - 6900) / 1200)) := by
  obtain ⟨j, hj, hfl, hget⟩ :=
    tabGet_toInt (builtTables peak).fluid_ct2hz_tab x 1200 h0 (by exact_mod_cast h1)
  rw [hget, built_ct2hz_tab peak j hj]
  simp only [Option.map_some']
  congr 1
  have hfloor : (⌊cents⌋ : Int) = (j : Int) + off := by
    have : ⌊x⌋ = ⌊cents⌋ - off := by rw [hx, Int.floor_sub_int]
    omega
  have hcast : ((⌊cents⌋ : Int) : ℝ) = (j : ℝ) + (off : ℝ) := by exact_mod_cast hfloor
  have hoffr : (off : ℝ) = 6900 + 1200 * (k : ℝ) := by exact_mod_cast hoff
  have hexp : (((⌊cents⌋ : Int) : ℝ) - 6900) / 1200 = (j : ℝ) / 1200 + (k : ℝ) := by
    rw [hcast, hoffr]
    ring
  rw [hexp, Real.rpow_add (by norm_num : (0 : ℝ) < 2), Real.rpow_intCast, hb]
  ring

/-- The eleven bands of `fluid_ct2hz_real` from 900 cents up compute one closed
form on the built table: for `900 ≤ cents < 14100` the result is
`440 * 2 ^ ((⌊cents⌋ - 6900) / 1200)`. -/
theorem ct2hz_real_closed (peak cents : ℝ) (h0 : 900 ≤ cents) (h1 : cents < 14100) :
    fluid_ct2hz_real (builtTables peak) cents =
      some (440 * (2 : ℝ) ^ (((⌊cents⌋ : ℝ) - 6900) / 1200)) := by
  unfold fluid_ct2hz_real
  rw [if_neg (not_lt.mpr (le_trans (by norm_num) h0)), if_neg (not_lt.mpr h0)]
  by_cases c2 : cents < 2100
  · rw [if_pos c2]
    exact band_lookup peak 13.75 (-5) (900) cents (cents - 900) (by norm_num) (by norm_num)
      (by push_cast; ring) (by linarith) (by linarith)
  rw [if_neg c2]
  by_cases c3 : cents < 3300
  · rw [if_pos c3]
    exact band_lookup peak 27.5 (-4) (2100) cents (cents - 2100) (by norm_num) (by norm_num)
      (by push_cast; ring) (by linarith) (by linarith)
  rw [if_neg c3]
  by_cases c4 : cents < 4500
  · rw [if_pos c4]
    exact band_lookup peak 55.0 (-3) (3300) cents (cents - 3300) (by norm_num) (by norm_num)
      (by push_cast; ring) (by linarith) (by linarith)
  rw [if_neg c4]
  by_cases c5 : cents < 5700
  · rw [if_pos c5]
    exact band_lookup peak 110.0 (-2) (4500) cents (cents - 4500) (by norm_num) (by norm_num)
      (by push_cast; ring) (by linarith) (by linarith)
  rw [if_neg c5]
  by_cases c6 : cents < 6900
  · rw [if_pos c6]
    exact band_lookup peak 220.0 (-1) (5700) cents (cents - 5700) (by norm_num) (by norm_num)
      (by push_cast; ring) (by linarith) (by linarith)
  rw [if_neg c6]
  by_cases c7 : cents < 8100
  · rw [if_pos c7]
    exact band_lookup peak 440.0 (0) (6900) cents (cents - 6900) (by norm_num) (by norm_num)
      (by push_cast; ring) (by linarith) (by linarith)
  rw [if_neg c7]
  by_cases c8 : cents < 9300
  · rw [if_pos c8]
    exact band_lookup peak 880.0 (1) (8100) cents (cents - 8100) (by norm_num) (by norm_num)
      (by push_cast; ring) (by linarith) (by linarith)
  rw [if_neg c8]
  by_cases c9 : cents < 10500
  · rw [if_pos c9]
    exact band_lookup peak 1760.0 (2) (9300) cents (cents - 9300) (by norm_num) (by norm_num)
      (by push_cast; ring) (by linarith) (by linarith)
  rw [if_neg c9]
  by_cases c10 : cents < 11700
  · rw [if_pos c10]
    exact band_lookup peak 3520.0 (3) (10500) cents (cents - 10500) (by norm_num) (by norm_num)
      (by push_cast; ring) (by linarith) (by linarith)
  rw [if_neg c10]
  by_cases c11 : cents < 12900
  · rw [if_pos c11]
    exact band_lookup peak 7040.0 (4) (11700) cents (cents - 11700) (by norm_num) (by norm_num)
      (by push_cast; ring) (by linarith) (by linarith)
  rw [if_neg c11]
  by_cases c12 : cents < 14100
  · rw [if_pos c12]
    exact band_lookup peak 14080.0 (5) (12900) cents (cents - 12900) (by norm_num) (by norm_num)
      (by push_cast; ring) (by linarith) (by linarith)
  rw [if_neg c12]
  exact absurd h1 c12

/-- The first band of `fluid_ct2hz_real` on the built table: for
`0 ≤ cents < 900` the index is the truncated rounded sum `cents + 300`; when it
is below 1200 the result is `6.875 * 2 ^ (i / 1200)`. -/
theorem first_band_lookup (peak cents : ℝ) (h0 : 0 ≤ cents) (h1 : cents < 900) (i : Nat)
    (hi : toInt (toFluidReal (cents + 300)) = (i : Int)) (hlt : i < 1200) :
    fluid_ct2hz_real (builtTables peak) cents = some (6.875 * (2 : ℝ) ^ ((i : ℝ) / 1200)) := by
  unfold fluid_ct2hz_real
  rw [if_neg (not_lt.mpr h0), if_pos h1, hi]
  simp [tabGet, built_ct2hz_tab peak i hlt]

/-- When the index of the first band is 1200 the read is outside the table. -/
theorem first_band_outside (peak cents : ℝ) (h0 : 0 ≤ cents) (h1 : cents < 900)
    (hi : toInt (toFluidReal (cents + 300)) = 1200) :
    fluid_ct2hz_real (builtTables peak) cents = none := by
  obtain ⟨hsz, _⟩ := builtTables_wellSized peak
  have hnone : (builtTables peak).fluid_ct2hz_tab[1200]? = none :=
    Array.getElem?_eq_none_iff.mpr (by rw [hsz]; decide)
  unfold fluid_ct2hz_real
  rw [if_neg (not_lt.mpr h0), if_pos h1, hi]
  simp [tabGet, hnone]

/-! ## Pitch conversion -/

/-- C1: for every input `cents`, inside the range or not, `fluid_ct2hz` is
`fluid_ct2hz_real` at the input clamped to `[1500, 13500]`, where the clamp maps
values below 1500 to 1500 and values at or above 13500 to 13500.  It holds for
any state of the tables. -/
theorem ct2hz_eq_ct2hz_real_clamp {α : Type} [LinearOrderedField α] [FloorRing α]
    (T : ConvTables α) (cents : α) :
    fluid_ct2hz T cents = fluid_ct2hz_real T (spec_clamp cents 1500 13500) := by
  unfold fluid_ct2hz spec_clamp
  by_cases h1 : cents < 1500
  · have h2 : ¬ cents ≥ 13500 := by
      intro h
      have : (1500 : α) < 13500 := by norm_num
      exact absurd (lt_of_le_of_lt h h1) (not_lt.mpr this.le)
    simp only [h1, h2, if_true, if_false]
  · by_cases h2 : cents ≥ 13500
    · have h3 : (13500 : α) ≤ cents := h2
      simp only [h1, h2, h3, if_true, if_false]
    · have h3 : ¬ (13500 : α) ≤ cents := h2
      simp only [h1, h2, h3, if_false]

/-- C2, counterexample: at `cents = 13300`, which is at or above 13300,
`fluid_ct2hz_real` on the built tables is still inside the last octave band; it
returns a value of at least 14080, not 1.0. -/
theorem ct2hz_real_13300_not_one :
    ∃ v : ℝ, fluid_ct2hz_real (builtTables FLUID_PEAK_ATTENUATION) 13300 = some v ∧
      14080 ≤ v ∧ v ≠ 1 := by
  refine ⟨440 * (2 : ℝ) ^ (((⌊(13300 : ℝ)⌋ : ℝ) - 6900) / 1200),
    ct2hz_real_closed _ 13300 (by norm_num) (by norm_num), ?_⟩
  have hfl : ⌊(13300 : ℝ)⌋ = 13300 := by simp
  have hexp : (5 : ℝ) ≤ (((⌊(13300 : ℝ)⌋ : ℝ) - 6900) / 1200) := by
    rw [hfl]
    norm_num
  have hpow : (2 : ℝ) ^ (5 : ℝ) ≤ (2 : ℝ) ^ (((⌊(13300 : ℝ)⌋ : ℝ) - 6900) / 1200) :=
    Real.rpow_le_rpow_of_exponent_le (by norm_num) hexp
  have h32 : (2 : ℝ) ^ (5 : ℝ) = 32 := by
    rw [show (5 : ℝ) = ((5 : ℕ) : ℝ) by norm_num, Real.rpow_natCast]
    norm_num
  rw [h32] at hpow
  constructor
  · linarith
  · intro h
    linarith

/-- C2, amended: for every input `cents ≥ 14100`, `fluid_ct2hz_real` returns
1.0, the out-of-range value, with the tables built by
`fluid_conversion_config`. -/
theorem ct2hz_real_out_of_range (peak cents : ℝ) (h : 14100 ≤ cents) :
    fluid_ct2hz_real (builtTables peak) cents = some 1 := by
  unfold fluid_ct2hz_real
  have hn : ∀ b : ℝ, b ≤ 14100 → ¬ cents < b := fun b hb => not_lt.mpr (le_trans hb h)
  rw [if_neg (hn 0 (by norm_num)), if_neg (hn 900 (by norm_num)),
    if_neg (hn 2100 (by norm_num)), if_neg (hn 3300 (by norm_num)),
    if_neg (hn 4500 (by norm_num)), if_neg (hn 5700 (by norm_num)),
    if_neg (hn 6900 (by norm_num)), if_neg (hn 8100 (by norm_num)),
    if_neg (hn 9300 (by norm_num)), if_neg (hn 10500 (by norm_num)),
    if_neg (hn 11700 (by norm_num)), if_neg (hn 12900 (by norm_num)),
    if_neg (hn 14100 (by norm_num))]

/-- C2, witness of the amended claim at `cents = 14100`. -/
theorem ct2hz_real_out_of_range_witness :
    (14100 : ℝ) ≤ 14100 ∧
      fluid_ct2hz_real (builtTables FLUID_PEAK_ATTENUATION) 14100 = some 1 :=
  ⟨le_refl _, ct2hz_real_out_of_range FLUID_PEAK_ATTENUATION 14100 (le_refl _)⟩

/-- Inside `[1500, 13500]` the cutoff limit of `fluid_ct2hz` changes nothing. -/
theorem ct2hz_in_range {α : Type} [LinearOrderedField α] [FloorRing α]
    (T : ConvTables α) (c : α) (h1 : 1500 ≤ c) (h2 : c ≤ 13500) :
    fluid_ct2hz T c = fluid_ct2hz_real T c := by
  unfold fluid_ct2hz
  by_cases h : c ≥ 13500
  · have hc : c = 13500 := le_antisymm h2 h
    simp only [if_pos h]
    rw [hc]
  · simp only [if_neg h, if_neg (not_lt.mpr h1)]

/-- On the built tables and inside `[1500, 13500]`, `fluid_ct2hz` is
`440 * 2 ^ ((⌊c⌋ - 6900) / 1200)`. -/
theorem ct2hz_closed (peak c : ℝ) (h1 : 1500 ≤ c) (h2 : c ≤ 13500) :
    fluid_ct2hz (builtTables peak) c = some (440 * (2 : ℝ) ^ (((⌊c⌋ : ℝ) - 6900) / 1200)) := by
  rw [ct2hz_in_range _ c h1 h2]
  exact ct2hz_real_closed peak c (by linarith) (by linarith)

theorem two_rpow_half_add (k : Int) : (2 : ℝ) ^ ((1 / 2 : ℝ) + (k : ℝ)) = √2 * (2 : ℝ) ^ k := by
  rw [Real.rpow_add (by norm_num : (0 : ℝ) < 2), Real.rpow_intCast, Real.sqrt_eq_rpow]

theorem sqrt_two_bounds : (1.4142 : ℝ) < √2 ∧ √2 < (1.4143 : ℝ) := by
  constructor
  · rw [Real.lt_sqrt (by norm_num)]
    norm_num
  · rw [Real.sqrt_lt' (by norm_num)]
    norm_num

/-- The value of `fluid_ct2hz` at 1500 cents on the built tables. -/
theorem ct2hz_1500 (peak : ℝ) : fluid_ct2hz (builtTables peak) 1500 = some (13.75 * √2) := by
  rw [ct2hz_closed peak 1500 (by norm_num) (by norm_num)]
  have hfl : ⌊(1500 : ℝ)⌋ = 1500 := by simp
  have hexp : (((⌊(1500 : ℝ)⌋ : ℝ) - 6900) / 1200) = (1 / 2 : ℝ) + ((-5 : Int) : ℝ) := by
    rw [hfl]
    norm_num
  rw [hexp, two_rpow_half_add]
  congr 1
  norm_num
  ring

/-- The value of `fluid_ct2hz` at 13500 cents on the built tables. -/
theorem ct2hz_13500 (peak : ℝ) : fluid_ct2hz (builtTables peak) 13500 = some (14080 * √2) := by
  rw [ct2hz_closed peak 13500 (by norm_num) (by norm_num)]
  have hfl : ⌊(13500 : ℝ)⌋ = 13500 := by simp
  have hexp : (((⌊(13500 : ℝ)⌋ : ℝ) - 6900) / 1200) = (1 / 2 : ℝ) + ((5 : Int) : ℝ) := by
    rw [hfl]
    norm_num
  rw [hexp, two_rpow_half_add]
  congr 1
  norm_num
  ring

/-- C3, counterexample: on the built tables `fluid_ct2hz 1500` is further than
0.02 from 20 Hz and `fluid_ct2hz 13500` is further than 20 from 20000 Hz, so
neither is within 0.1 percent of the nominal limit. -/
theorem ct2hz_limits_not_within_tolerance :
    ∃ v w : ℝ, fluid_ct2hz (builtTables FLUID_PEAK_ATTENUATION) 1500 = some v ∧
      fluid_ct2hz (builtTables FLUID_PEAK_ATTENUATION) 13500 = some w ∧
      ¬ (|v - 20| ≤ 0.02) ∧ ¬ (|w - 20000| ≤ 20) := by
  obtain ⟨hlo, hhi⟩ := sqrt_two_bounds
  refine ⟨13.75 * √2, 14080 * √2, ct2hz_1500 _, ct2hz_13500 _, ?_, ?_⟩
  · intro h
    have := (abs_le.mp h).1
    linarith
  · intro h
    have := (abs_le.mp h).1
    linarith

/-- C3, amended: with the tables built by `fluid_conversion_config`,
`fluid_ct2hz 1500` is `13.75 * √2` (about 19.445), within 3 percent of 20 Hz,
and `fluid_ct2hz 13500` is `14080 * √2` (about 19912.1), within 0.5 percent of
20000 Hz: `|ct2hz 1500 - 20| ≤ 0.6` and `|ct2hz 13500 - 20000| ≤ 100`. -/
theorem ct2hz_limits (peak : ℝ) :
    ∃ v w : ℝ, fluid_ct2hz (builtTables peak) 1500 = some v ∧
      fluid_ct2hz (builtTables peak) 13500 = some w ∧
      v = 13.75 * √2 ∧ w = 14080 * √2 ∧ |v - 20| ≤ 0.6 ∧ |w - 20000| ≤ 100 := by
  obtain ⟨hlo, hhi⟩ := sqrt_two_bounds
  refine ⟨13.75 * √2, 14080 * √2, ct2hz_1500 _, ct2hz_13500 _, rfl, rfl, ?_, ?_⟩
  · rw [abs_le]
    constructor <;> linarith
  · rw [abs_le]
    constructor <;> linarith

/-- C4: `fluid_ct2hz` is monotonically non-decreasing on `[1500, 13500]`, with
the tables built by `fluid_conversion_config`: for `1500 ≤ c1 ≤ c2 ≤ 13500` both
calls return a value and the first is at most the second, octave-band
boundaries included. -/
theorem ct2hz_mono (peak c1 c2 : ℝ) (h1 : 1500 ≤ c1) (h12 : c1 ≤ c2) (h2 : c2 ≤ 13500) :
    ∃ a b : ℝ, fluid_ct2hz (builtTables peak) c1 = some a ∧
      fluid_ct2hz (builtTables peak) c2 = some b ∧ a ≤ b := by
  refine ⟨_, _, ct2hz_closed peak c1 h1 (le_trans h12 h2),
    ct2hz_closed peak c2 (le_trans h1 h12) h2, ?_⟩
  have hfl : ((⌊c1⌋ : Int) : ℝ) ≤ ((⌊c2⌋ : Int) : ℝ) := by
    exact_mod_cast Int.floor_mono h12
  have hexp : (((⌊c1⌋ : Int) : ℝ) - 6900) / 1200 ≤ (((⌊c2⌋ : Int) : ℝ) - 6900) / 1200 := by
    linarith
  have hpow := Real.rpow_le_rpow_of_exponent_le (by norm_num : (1 : ℝ) ≤ 2) hexp
  linarith

/-- C4, witness: across the octave-band boundary at 2100 cents. -/
theorem ct2hz_mono_witness :
    ∃ a b : ℝ, fluid_ct2hz (builtTables FLUID_PEAK_ATTENUATION) 2099 = some a ∧
      fluid_ct2hz (builtTables FLUID_PEAK_ATTENUATION) 2100 = some b ∧ a ≤ b :=
  ct2hz_mono FLUID_PEAK_ATTENUATION 2099 2100 (by norm_num) (by norm_num) (by norm_num)

/-! ## Attenuation conversion -/

/-- The lookup branch of `fluid_cb2amp` on the built table: for
`0 ≤ cb < 1441` the result is `10 ^ (-⌊cb⌋ / 200)`. -/
theorem cb2amp_lookup (peak cb : ℝ) (h0 : 0 ≤ cb) (h1 : cb < 1441) :
    fluid_cb2amp (builtTables peak) cb = some ((10 : ℝ) ^ (-(⌊cb⌋ : ℝ) / 200)) := by
  unfold fluid_cb2amp
  have hsz : ((FLUID_CB_AMP_SIZE : Nat) : ℝ) = 1441 := by norm_num [FLUID_CB_AMP_SIZE]
  rw [if_neg (not_lt.mpr h0), hsz, if_neg (not_le.mpr h1)]
  obtain ⟨j, hj, hfl, hget⟩ :=
    tabGet_toInt (builtTables peak).fluid_cb2amp_tab cb 1441 h0 (by exact_mod_cast h1)
  rw [hget, built_cb2amp_tab peak j hj]
  have hcast : ((⌊cb⌋ : Int) : ℝ) = (j : ℝ) := by exact_mod_cast hfl
  rw [hcast]
  congr 2
  ring

theorem cb2amp_neg {α : Type} [LinearOrderedField α] [FloorRing α] (T : ConvTables α) (cb : α)
    (h : cb < 0) : fluid_cb2amp T cb = some 1 := by
  unfold fluid_cb2amp
  rw [if_pos h]

theorem cb2amp_large {α : Type} [LinearOrderedField α] [FloorRing α] (T : ConvTables α) (cb : α)
    (h : 1441 ≤ cb) : fluid_cb2amp T cb = some 0 := by
  unfold fluid_cb2amp
  have hsz : ((FLUID_CB_AMP_SIZE : Nat) : α) = 1441 := by norm_num [FLUID_CB_AMP_SIZE]
  have h0 : ¬ cb < 0 := not_lt.mpr (le_trans (by norm_num) h)
  rw [if_neg h0, hsz, if_pos h]

/-- C5: with the tables built by `fluid_conversion_config`, for every real
`cb`: `fluid_cb2amp cb` is 1.0 when `cb < 0`, 0.0 when `cb ≥ 1441`, and
otherwise `10 ^ (-⌊cb⌋ / 200)`, the table entry at the truncated index.  In
particular `cb2amp 0 = 1.0`, `cb2amp (-5) = 1.0` and `cb2amp 1441 = 0.0`. -/
theorem cb2amp_spec (peak cb : ℝ) :
    (cb < 0 → fluid_cb2amp (builtTables peak) cb = some 1) ∧
    (1441 ≤ cb → fluid_cb2amp (builtTables peak) cb = some 0) ∧
    (0 ≤ cb → cb < 1441 →
      fluid_cb2amp (builtTables peak) cb = some ((10 : ℝ) ^ (-(⌊cb⌋ : ℝ) / 200))) ∧
    fluid_cb2amp (builtTables peak) 0 = some 1 ∧
    fluid_cb2amp (builtTables peak) (-5) = some 1 ∧
    fluid_cb2amp (builtTables peak) 1441 = some 0 := by
  refine ⟨cb2amp_neg _ cb, cb2amp_large _ cb, cb2amp_lookup peak cb, ?_,
    cb2amp_neg _ (-5) (by norm_num), cb2amp_large _ 1441 (le_refl _)⟩
  rw [cb2amp_lookup peak 0 (le_refl _) (by norm_num)]
  simp

/-- C5, witness: the three branches at `cb = -5`, `cb = 1441` and `cb = 200`. -/
theorem cb2amp_spec_witness :
    fluid_cb2amp (builtTables FLUID_PEAK_ATTENUATION) (-5) = some 1 ∧
    fluid_cb2amp (builtTables FLUID_PEAK_ATTENUATION) 1441 = some 0 ∧
    fluid_cb2amp (builtTables FLUID_PEAK_ATTENUATION) 200 = some ((10 : ℝ) ^ (-(1 : ℝ))) := by
  refine ⟨(cb2amp_spec FLUID_PEAK_ATTENUATION (-5)).1 (by norm_num),
    (cb2amp_spec FLUID_PEAK_ATTENUATION 1441).2.1 (le_refl _), ?_⟩
  rw [(cb2amp_spec FLUID_PEAK_ATTENUATION 200).2.2.1 (by norm_num) (by norm_num)]
  have hfl : ⌊(200 : ℝ)⌋ = 200 := by simp
  rw [hfl]
  norm_num

/-- On the built tables `fluid_cb2amp` always returns a value in `[0, 1]`. -/
theorem cb2amp_range (peak cb : ℝ) :
    ∃ a : ℝ, fluid_cb2amp (builtTables peak) cb = some a ∧ 0 ≤ a ∧ a ≤ 1 := by
  by_cases h0 : cb < 0
  · exact ⟨1, cb2amp_neg _ cb h0, by norm_num, le_refl _⟩
  · by_cases h1 : 1441 ≤ cb
    · exact ⟨0, cb2amp_large _ cb h1, le_refl _, by norm_num⟩
    · have h0 : 0 ≤ cb := not_lt.mp h0
      refine ⟨_, cb2amp_lookup peak cb h0 (not_le.mp h1), ?_, ?_⟩
      · exact Real.rpow_nonneg (by norm_num) _
      · apply Real.rpow_le_one_of_one_le_of_nonpos (by norm_num)
        have : (0 : ℝ) ≤ ((⌊cb⌋ : Int) : ℝ) := by exact_mod_cast Int.floor_nonneg.mpr h0
        apply div_nonpos_of_nonpos_of_nonneg <;> linarith

/-- C6: with the tables built by `fluid_conversion_config`, `fluid_cb2amp` is
monotonically non-increasing over all reals: for `cb1 ≤ cb2` both calls return a
value and the second is at most the first, across the floor at `cb < 0` and the
ceiling at `cb ≥ 1441` as well. -/
theorem cb2amp_antitone (peak cb1 cb2 : ℝ) (h : cb1 ≤ cb2) :
    ∃ a b : ℝ, fluid_cb2amp (builtTables peak) cb1 = some a ∧
      fluid_cb2amp (builtTables peak) cb2 = some b ∧ b ≤ a := by
  by_cases h0 : cb1 < 0
  · obtain ⟨b, hb, _, hb1⟩ := cb2amp_range peak cb2
    exact ⟨1, b, cb2amp_neg _ cb1 h0, hb, hb1⟩
  · have h0 : 0 ≤ cb1 := not_lt.mp h0
    by_cases h1 : 1441 ≤ cb1
    · exact ⟨0, 0, cb2amp_large _ cb1 h1, cb2amp_large _ cb2 (le_trans h1 h), le_refl _⟩
    · have h1 : cb1 < 1441 := not_le.mp h1
      by_cases h2 : 1441 ≤ cb2
      · exact ⟨_, 0, cb2amp_lookup peak cb1 h0 h1, cb2amp_large _ cb2 h2,
          Real.rpow_nonneg (by norm_num) _⟩
      · refine ⟨_, _, cb2amp_lookup peak cb1 h0 h1,
          cb2amp_lookup peak cb2 (le_trans h0 h) (not_le.mp h2), ?_⟩
        apply Real.rpow_le_rpow_of_exponent_le (by norm_num)
        have hfl : ((⌊cb1⌋ : Int) : ℝ) ≤ ((⌊cb2⌋ : Int) : ℝ) := by
          exact_mod_cast Int.floor_mono h
        linarith

/-- C6, witness: across the lookup range and its ceiling, `cb1 = 100.5` and
`cb2 = 1441`. -/
theorem cb2amp_antitone_witness :
    ∃ a b : ℝ, fluid_cb2amp (builtTables FLUID_PEAK_ATTENUATION) 100.5 = some a ∧
      fluid_cb2amp (builtTables FLUID_PEAK_ATTENUATION) 1441 = some b ∧ b ≤ a :=
  cb2amp_antitone FLUID_PEAK_ATTENUATION 100.5 1441 (by norm_num)

/-! ## Balance -/

/-- C7: for every balance value `b` and channel flag `left` (a C `int`, true
when non-zero), and any state of the tables: `fluid_balance 0 left` is 1.0; the
favoured channel is unattenuated, `fluid_balance b left = 1.0` for the left
channel when `b < 0` and for the right channel when `b > 0`; in every other
case `fluid_balance b left = fluid_cb2amp |b|`.  In particular
`balance(-200, left) = 1.0` and `balance(-200, right) = cb2amp(200)`. -/
theorem balance_spec {α : Type} [LinearOrderedField α] [FloorRing α]
    (T : ConvTables α) (b : α) (left : Int) :
    fluid_balance T 0 left = some 1 ∧
    (left ≠ 0 → b < 0 → fluid_balance T b left = some 1) ∧
    (left = 0 → 0 < b → fluid_balance T b left = some 1) ∧
    (b ≠ 0 → ¬ (left ≠ 0 ∧ b < 0) → ¬ (left = 0 ∧ 0 < b) →
      fluid_balance T b left = fluid_cb2amp T |b|) ∧
    fluid_balance T (-200) 1 = some 1 ∧
    fluid_balance T (-200) 0 = fluid_cb2amp T 200 := by
  refine ⟨?_, ?_, ?_, ?_, ?_, ?_⟩
  · simp [fluid_balance]
  · intro hl hb
    unfold fluid_balance
    rw [if_neg (ne_of_lt hb), if_pos (Or.inl ⟨hl, hb⟩)]
  · intro hl hb
    unfold fluid_balance
    rw [if_neg (ne_of_gt hb), if_pos (Or.inr ⟨not_not.mpr hl, hb⟩)]
  · intro hb h1 h2
    unfold fluid_balance
    have h3 : ¬ ((left ≠ 0 ∧ b < 0) ∨ (¬ left ≠ 0 ∧ b > 0)) := by
      rintro (h | h)
      · exact h1 h
      · exact h2 ⟨not_not.mp h.1, h.2⟩
    rw [if_neg hb, if_neg h3]
    by_cases hneg : b < 0
    · simp only [if_pos hneg, abs_of_neg hneg]
    · simp only [if_neg hneg, abs_of_nonneg (not_lt.mp hneg)]
  · unfold fluid_balance
    have h1 : ¬ ((-200 : α) = 0) := by norm_num
    have h2 : ((1 : Int) ≠ 0 ∧ (-200 : α) < 0) := ⟨by decide, by norm_num⟩
    rw [if_neg h1, if_pos (Or.inl h2)]
  · unfold fluid_balance
    have h1 : ¬ ((-200 : α) = 0) := by norm_num
    have h2 : ¬ ((((0 : Int) ≠ 0) ∧ (-200 : α) < 0) ∨ (¬ ((0 : Int) ≠ 0) ∧ (-200 : α) > 0)) := by
      rintro (h | h)
      · exact h.1 rfl
      · have : ¬ ((-200 : α) > 0) := by norm_num
        exact this h.2
    have h3 : (-200 : α) < 0 := by norm_num
    rw [if_neg h1, if_neg h2]
    simp only [if_pos h3, neg_neg]

/-- C7, witness: on the built tables, `balance(-200, left) = 1.0`, and
`balance(-200, right)` is `cb2amp(200) = 10 ^ (-1)`. -/
theorem balance_spec_witness :
    fluid_balance (builtTables FLUID_PEAK_ATTENUATION) (-200) 1 = some 1 ∧
    fluid_balance (builtTables FLUID_PEAK_ATTENUATION) (-200) 0 = some ((10 : ℝ) ^ (-(1 : ℝ))) := by
  refine ⟨(balance_spec (builtTables FLUID_PEAK_ATTENUATION) (-200) 1).2.1
    (by decide) (by norm_num), ?_⟩
  rw [(balance_spec (builtTables FLUID_PEAK_ATTENUATION) (-200) 0).2.2.2.1
    (by norm_num) (by simp) (by norm_num)]
  have habs : |(-200 : ℝ)| = 200 := by norm_num
  rw [habs, cb2amp_lookup FLUID_PEAK_ATTENUATION 200 (by norm_num) (by norm_num)]
  have hfl : ⌊(200 : ℝ)⌋ = 200 := by simp
  rw [hfl]
  norm_num

/-! ## Pan -/

theorem pan_right_low {α : Type} [LinearOrderedField α] [FloorRing α] (T : ConvTables α) (c : α)
    (h : c ≤ -500) : fluid_pan T c 0 = some 0 := by
  simp [fluid_pan, h]

theorem pan_right_high {α : Type} [LinearOrderedField α] [FloorRing α] (T : ConvTables α) (c : α)
    (h : 500 ≤ c) : fluid_pan T c 0 = some 1 := by
  have h1 : ¬ c ≤ -500 := not_le.mpr (lt_of_lt_of_le (by norm_num) h)
  simp [fluid_pan, h, h1]

/-- The truncated index of a natural number below `2 ^ 53`, rounded to the
format, is the number. -/
theorem toInt_toFluidReal_natCast {α : Type} [LinearOrderedField α] [FloorRing α] (n : Nat)
    (hn : n < 2 ^ 53) : toInt (toFluidReal (n : α)) = (n : Int) := by
  rw [toFluidReal_natCast n hn, toInt_of_nonneg _ (Nat.cast_nonneg n), Int.floor_natCast]

/-- The index of the lookup branch of `fluid_pan`: for `-500 < c < 500` the
truncated rounded sum `c + 500` is a natural number, at most 1000. -/
theorem pan_index {α : Type} [LinearOrderedField α] [FloorRing α] (c : α) (h0 : -500 < c)
    (h1 : c < 500) :
    ∃ j : Nat, j ≤ 1000 ∧ toInt (toFluidReal (c + 500)) = (j : Int) := by
  obtain ⟨hnn, hle⟩ := toFluidReal_bounds (c + 500) (by linarith)
  have hsmall : (c + 500) / 2 ^ 53 < 1 := by
    rw [div_lt_one (by positivity)]
    have : (1000 : α) < 2 ^ 53 := by norm_num
    linarith
  have hlt : toFluidReal (c + 500) < ((1001 : Nat) : α) := by
    push_cast
    linarith
  have hfl0 : (0 : Int) ≤ ⌊toFluidReal (c + 500)⌋ := Int.floor_nonneg.mpr hnn
  have hfl1 : ⌊toFluidReal (c + 500)⌋ < ((1001 : Nat) : Int) := Int.floor_lt.mpr (by exact_mod_cast hlt)
  refine ⟨⌊toFluidReal (c + 500)⌋.toNat, by omega, ?_⟩
  rw [toInt_of_nonneg _ hnn]
  omega

/-- The lookup branch of `fluid_pan` for the right channel on the built table:
for `-500 < c < 500` the result is the macro value `FLUID_PAN_TAB` at the
truncated rounded sum `c + 500`, an index of at most 1000. -/
theorem pan_right_lookup (peak c : ℝ) (h0 : -500 < c) (h1 : c < 500) :
    ∃ j : Nat, j ≤ 1000 ∧ toInt (toFluidReal (c + 500)) = (j : Int) ∧
      fluid_pan (builtTables peak) c 0 = some (FLUID_PAN_TAB j) := by
  obtain ⟨j, hj, hidx⟩ := pan_index c h0 h1
  refine ⟨j, hj, hidx, ?_⟩
  have hlow : ¬ c ≤ -500 := not_le.mpr h0
  have hhigh : ¬ c ≥ 500 := not_le.mpr h1
  simp only [fluid_pan, ne_eq, not_true_eq_false, if_false, hlow, hhigh, hidx]
  simp [tabGet, built_pan_tab peak j (by omega)]

theorem pan_tab_formula (j : Nat) :
    FLUID_PAN_TAB j = Real.sin ((j : ℝ) * (Real.pi / 2) / 1001) := by
  unfold FLUID_PAN_TAB
  congr 1
  norm_num [FLUID_PAN_SIZE]
  ring

/-- C8, counterexample: at the position `c = -2 ^ (-45)`, a number of the
format strictly between -500 and 500, the right channel reads entry 500 of the
pan table, because the sum `c + 500` rounds to 500; the claimed value
`sin (⌊c + 500⌋ * (π / 2) / 1001)` is entry 499, which is smaller. -/
theorem pan_right_floor_formula_fails :
    toFluidReal (-(1 / 2 ^ 45) : ℝ) = -(1 / 2 ^ 45) ∧
    (-500 : ℝ) < -(1 / 2 ^ 45) ∧ (-(1 / 2 ^ 45) : ℝ) < 500 ∧
    fluid_pan (builtTables FLUID_PEAK_ATTENUATION) (-(1 / 2 ^ 45)) 0 =
      some (Real.sin (500 * (Real.pi / 2) / 1001)) ∧
    ⌊(-(1 / 2 ^ 45) : ℝ) + 500⌋ = 499 ∧
    fluid_pan (builtTables FLUID_PEAK_ATTENUATION) (-(1 / 2 ^ 45)) 0 ≠
      some (Real.sin ((⌊(-(1 / 2 ^ 45) : ℝ) + 500⌋ : ℝ) * (Real.pi / 2) / 1001)) := by
  have hfloor : ⌊(-(1 / 2 ^ 45) : ℝ) + 500⌋ = 499 := by
    rw [Int.floor_eq_iff]
    norm_num
  have hpan : fluid_pan (builtTables FLUID_PEAK_ATTENUATION) (-(1 / 2 ^ 45)) 0 =
      some (Real.sin (500 * (Real.pi / 2) / 1001)) := by
    obtain ⟨j, _, hidx, hval⟩ :=
      pan_right_lookup FLUID_PEAK_ATTENUATION (-(1 / 2 ^ 45)) (by norm_num) (by norm_num)
    have h500 : toInt (toFluidReal ((-(1 / 2 ^ 45) : ℝ) + 500)) = 500 := by
      rw [toFluidReal_sum_500, toInt_of_nonneg _ (by norm_num)]
      simp
    have hj : j = 500 := by omega
    subst hj
    rw [hval, pan_tab_formula]
    norm_num
  refine ⟨toFluidReal_inputs.2.2, by norm_num, by norm_num, hpan, hfloor, ?_⟩
  rw [hpan, hfloor]
  intro h
  have heq := Option.some.inj h
  have hpi := Real.pi_pos
  have hlt : Real.sin (((499 : Int) : ℝ) * (Real.pi / 2) / 1001) <
      Real.sin (500 * (Real.pi / 2) / 1001) := by
    apply Real.sin_lt_sin_of_lt_of_le_pi_div_two
    · push_cast
      have : (0 : ℝ) ≤ 499 * (Real.pi / 2) / 1001 := by positivity
      linarith
    · rw [div_le_iff₀ (by norm_num)]
      nlinarith
    · push_cast
      rw [div_lt_div_iff_of_pos_right (by norm_num)]
      nlinarith
  rw [heq] at hlt
  exact lt_irrefl _ hlt

/-- C8, amended: for the right channel (`left = 0`) and every real position
`c`, with the tables built by `fluid_conversion_config`: `fluid_pan c` is 0.0
when `c ≤ -500`, 1.0 when `c ≥ 500`, and otherwise `sin (i * (π / 2) / 1001)`,
the pan-table entry at `i = (int)(c + 500)`, the truncation of the sum as
rounded to the format, with `i ≤ 1000`.  Whenever the sum is exact, `i` is
`⌊c + 500⌋`; so it is for every integer position.  In particular
`pan(500) = 1.0` and `pan(-500) = 0.0`. -/
theorem pan_right_spec (peak c : ℝ) :
    (c ≤ -500 → fluid_pan (builtTables peak) c 0 = some 0) ∧
    (500 ≤ c → fluid_pan (builtTables peak) c 0 = some 1) ∧
    (-500 < c → c < 500 → ∃ i : Nat, i ≤ 1000 ∧
      toInt (toFluidReal (c + 500)) = (i : Int) ∧
      fluid_pan (builtTables peak) c 0 = some (Real.sin ((i : ℝ) * (Real.pi / 2) / 1001))) ∧
    (-500 < c → c < 500 → toFluidReal (c + 500) = c + 500 →
      fluid_pan (builtTables peak) c 0 =
        some (Real.sin ((⌊c + 500⌋ : ℝ) * (Real.pi / 2) / 1001))) ∧
    (∀ n : Int, -500 < n → n < 500 →
      fluid_pan (builtTables peak) (n : ℝ) 0 =
        some (Real.sin (((n : ℝ) + 500) * (Real.pi / 2) / 1001))) ∧
    fluid_pan (builtTables peak) 500 0 = some 1 ∧
    fluid_pan (builtTables peak) (-500) 0 = some 0 := by
  have hexact : ∀ d : ℝ, -500 < d → d < 500 → toFluidReal (d + 500) = d + 500 →
      fluid_pan (builtTables peak) d 0 =
        some (Real.sin ((⌊d + 500⌋ : ℝ) * (Real.pi / 2) / 1001)) := by
    intro d h0 h1 hfl
    obtain ⟨j, _, hidx, hpan⟩ := pan_right_lookup peak d h0 h1
    rw [hfl, toInt_of_nonneg _ (by linarith)] at hidx
    have hcast : ((⌊d + 500⌋ : Int) : ℝ) = (j : ℝ) := by exact_mod_cast hidx
    rw [hpan, pan_tab_formula, hcast]
  refine ⟨pan_right_low _ c, pan_right_high _ c, ?_, hexact c, ?_,
    pan_right_high _ 500 (le_refl _), pan_right_low _ (-500) (le_refl _)⟩
  · intro h0 h1
    obtain ⟨j, hj, hidx, hpan⟩ := pan_right_lookup peak c h0 h1
    exact ⟨j, hj, hidx, by rw [hpan, pan_tab_formula]⟩
  · intro n h0 h1
    have hn0 : (-500 : ℝ) < (n : ℝ) := by exact_mod_cast h0
    have hn1 : (n : ℝ) < 500 := by exact_mod_cast h1
    have hnat : (n : ℝ) + 500 = (((n + 500).toNat : Nat) : ℝ) := by
      have h2 : (((n + 500).toNat : Nat) : Int) = n + 500 := Int.toNat_of_nonneg (by omega)
      have h3 : ((((n + 500).toNat : Nat) : Int) : ℝ) = ((n + 500 : Int) : ℝ) := by rw [h2]
      push_cast at h3
      linarith
    have hrep : toFluidReal ((n : ℝ) + 500) = (n : ℝ) + 500 := by
      rw [hnat]
      exact toFluidReal_natCast _ (by omega)
    rw [hexact (n : ℝ) hn0 hn1 hrep]
    have hfloor : ⌊(n : ℝ) + 500⌋ = n + 500 := by
      have : (n : ℝ) + 500 = ((n + 500 : Int) : ℝ) := by push_cast; ring
      rw [this, Int.floor_intCast]
    rw [hfloor]
    push_cast
    rfl

/-- C8, witness: the integer position -499 reads entry 1, and the two clamps
at `c = 500` and `c = -500`. -/
theorem pan_right_spec_witness :
    fluid_pan (builtTables FLUID_PEAK_ATTENUATION) ((-499 : Int) : ℝ) 0 =
      some (Real.sin ((((-499 : Int) : ℝ) + 500) * (Real.pi / 2) / 1001)) ∧
    fluid_pan (builtTables FLUID_PEAK_ATTENUATION) 500 0 = some 1 ∧
    fluid_pan (builtTables FLUID_PEAK_ATTENUATION) (-500) 0 = some 0 :=
  ⟨(pan_right_spec FLUID_PEAK_ATTENUATION 0).2.2.2.2.1 (-499) (by norm_num) (by norm_num),
    (pan_right_spec FLUID_PEAK_ATTENUATION 500).2.1 (le_refl _),
    (pan_right_spec FLUID_PEAK_ATTENUATION (-500)).1 (le_refl _)⟩

/-- C9: the stereo image is symmetric, for any state of the tables: for every
position `c` the left channel (`left` non-zero) at `c` is the right channel
(`left = 0`) at `-c`; consequently at `c = 0` the two channels agree. -/
theorem pan_symmetric {α : Type} [LinearOrderedField α] [FloorRing α]
    (T : ConvTables α) (c : α) (left : Int) :
    (left ≠ 0 → fluid_pan T c left = fluid_pan T (-c) 0) ∧
    fluid_pan T 0 0 = fluid_pan T 0 left := by
  constructor
  · intro hl
    simp [fluid_pan, hl]
  · by_cases hl : left = 0
    · rw [hl]
    · simp [fluid_pan, hl]

/-- C9, witness: on the built tables, the left channel at `c = 500` is the
right channel at `c = -500`, which is fully cut. -/
theorem pan_symmetric_witness :
    fluid_pan (builtTables FLUID_PEAK_ATTENUATION) 500 1 =
      fluid_pan (builtTables FLUID_PEAK_ATTENUATION) (-500) 0 ∧
    fluid_pan (builtTables FLUID_PEAK_ATTENUATION) 500 1 = some 0 := by
  have h := (pan_symmetric (builtTables FLUID_PEAK_ATTENUATION) 500 1).1 (by decide)
  exact ⟨h, h.trans (pan_right_low _ (-500) (le_refl _))⟩

/-- The centre entry of the pan table, `sin (500 * (π / 2) / 1001)`, lies below
`sin (π / 4)` by at most `π / 4004`. -/
theorem pan_centre_entry :
    0 ≤ Real.sin (Real.pi / 4) - FLUID_PAN_TAB 500 ∧
      Real.sin (Real.pi / 4) - FLUID_PAN_TAB 500 ≤ Real.pi / 4004 := by
  have hpi := Real.pi_pos
  have hpi4 := Real.pi_le_four
  have harg : FLUID_PAN_TAB 500 = Real.sin (Real.pi / 4 - Real.pi / 4004) := by
    rw [pan_tab_formula]
    congr 1
    push_cast
    ring
  rw [harg, Real.sin_sub_sin]
  have h1 : (Real.pi / 4 - (Real.pi / 4 - Real.pi / 4004)) / 2 = Real.pi / 8008 := by ring
  have h2 : (Real.pi / 4 + (Real.pi / 4 - Real.pi / 4004)) / 2 = Real.pi / 4 - Real.pi / 8008 := by
    ring
  rw [h1, h2]
  have hs0 : 0 ≤ Real.sin (Real.pi / 8008) :=
    Real.sin_nonneg_of_nonneg_of_le_pi (by positivity) (by linarith)
  have hs1 : Real.sin (Real.pi / 8008) < Real.pi / 8008 := Real.sin_lt (by positivity)
  have hc0 : 0 ≤ Real.cos (Real.pi / 4 - Real.pi / 8008) :=
    Real.cos_nonneg_of_neg_pi_div_two_le_of_le (by linarith) (by linarith)
  have hc1 : Real.cos (Real.pi / 4 - Real.pi / 8008) ≤ 1 := Real.cos_le_one _
  constructor
  · positivity
  · have : Real.sin (Real.pi / 8008) * Real.cos (Real.pi / 4 - Real.pi / 8008) ≤
        Real.pi / 8008 * 1 :=
      mul_le_mul hs1.le hc1 hc0 (by positivity)
    linarith

/-- C10: at the centre position the pan gain is the equal-power value to three
decimals, with the pan table `entry[i] = sin (i * (π / 2) / 1001)`: for either
channel flag `fluid_pan 0 left` returns the table entry 500, and that value is
within 0.001 of `sin (π / 4)` and within 0.001 of 0.707. -/
theorem pan_centre (peak : ℝ) (left : Int) :
    ∃ v : ℝ, fluid_pan (builtTables peak) 0 left = some v ∧
      v = Real.sin (500 * (Real.pi / 2) / 1001) ∧
      |v - Real.sin (Real.pi / 4)| < 0.001 ∧ |v - 0.707| < 0.001 := by
  have hleft : fluid_pan (builtTables peak) 0 left = fluid_pan (builtTables peak) 0 0 := by
    by_cases hl : left = 0
    · rw [hl]
    · simp [fluid_pan, hl]
  obtain ⟨j, _, hfl, hpan⟩ := pan_right_lookup peak 0 (by norm_num) (by norm_num)
  have hj : j = 500 := by
    have h500 : toInt (toFluidReal ((0 : ℝ) + 500)) = ((500 : Nat) : Int) := by
      have hsum : (0 : ℝ) + 500 = ((500 : Nat) : ℝ) := by norm_num
      rw [hsum]
      exact toInt_toFluidReal_natCast 500 (by norm_num)
    omega
  subst hj
  obtain ⟨hd0, hd1⟩ := pan_centre_entry
  obtain ⟨hlo, hhi⟩ := sqrt_two_bounds
  have hpi := Real.pi_lt_d4
  have hsin : Real.sin (Real.pi / 4) = √2 / 2 := Real.sin_pi_div_four
  refine ⟨FLUID_PAN_TAB 500, hleft.trans hpan, ?_, ?_, ?_⟩
  · rw [pan_tab_formula]
    norm_num
  · rw [abs_lt]
    constructor <;> linarith
  · rw [abs_lt]
    constructor <;> linarith

/-! ## The curve tables -/

/-- The convex table after the builder, from any initial content of a table of
128 entries: every entry is determined by the builder alone. -/
theorem config_convex_tab (peak : ℝ) (s : ConvTables ℝ) (hs : s.fluid_convex_tab.size = 128)
    (j : Nat) (hj : j < 128) :
    (fluid_conversion_config peak s).fluid_convex_tab[j]? =
      some (if j = 0 then 0 else if j = 127 then 1 else 1 - curve_x peak j) := by
  simp only [fluid_conversion_config, config_pan_eq, config_curves_eq,
    config_curve_ends, config_cb2amp_eq, config_ct2hz_eq]
  rw [forLoop_setD_getElem?]
  simp only [Array.size_setD, getElem?_setD, hs, FLUID_VEL_CB_SIZE]
  by_cases h0 : j = 0
  · subst h0
    simp
  · by_cases h127 : j = 127
    · subst h127
      simp
    · have h1 : 1 ≤ j ∧ j < 128 - 1 ∧ j < 128 := ⟨by omega, by omega, hj⟩
      simp [h0, h127, h1]

/-- The concave table after the builder, from any initial content of a table
of 128 entries. -/
theorem config_concave_tab (peak : ℝ) (s : ConvTables ℝ) (hs : s.fluid_concave_tab.size = 128)
    (j : Nat) (hj : j < 128) :
    (fluid_conversion_config peak s).fluid_concave_tab[j]? =
      some (if j = 0 then 0 else if j = 127 then 1 else curve_x peak (127 - j)) := by
  simp only [fluid_conversion_config, config_pan_eq, config_curves_eq,
    config_curve_ends, config_cb2amp_eq, config_ct2hz_eq]
  rw [forLoop_setD_rev_getElem? _ _ _ _ _ _ (by decide)]
  simp only [Array.size_setD, getElem?_setD, hs, FLUID_VEL_CB_SIZE]
  by_cases h0 : j = 0
  · subst h0
    simp
  · by_cases h127 : j = 127
    · subst h127
      simp
    · have h1 : 128 - 1 < j + (128 - 1) ∧ j + 1 ≤ 128 - 1 ∧ j < 128 :=
        ⟨by omega, by omega, hj⟩
      simp [h0, h127, h1]

/-- The interior loop of the builder leaves entries 0 and 127 of both curve
tables as they were, whatever the state. -/
theorem config_curves_ends_kept (peak : ℝ) (s : ConvTables ℝ) :
    (config_curves peak s).fluid_concave_tab[0]? = s.fluid_concave_tab[0]? ∧
    (config_curves peak s).fluid_concave_tab[127]? = s.fluid_concave_tab[127]? ∧
    (config_curves peak s).fluid_convex_tab[0]? = s.fluid_convex_tab[0]? ∧
    (config_curves peak s).fluid_convex_tab[127]? = s.fluid_convex_tab[127]? := by
  rw [config_curves_eq]
  refine ⟨?_, ?_, ?_, ?_⟩
  · rw [forLoop_setD_rev_getElem? _ _ _ _ _ _ (by decide)]
    simp [FLUID_VEL_CB_SIZE]
  · rw [forLoop_setD_rev_getElem? _ _ _ _ _ _ (by decide)]
    simp [FLUID_VEL_CB_SIZE]
  · rw [forLoop_setD_getElem?]
    simp
  · rw [forLoop_setD_getElem?]
    simp [FLUID_VEL_CB_SIZE]

section CurveReads

variable {α : Type} [LinearOrderedField α] [FloorRing α]

theorem concave_neg (T : ConvTables α) (val : α) (h : val < 0) : fluid_concave T val = some 0 := by
  unfold fluid_concave
  rw [if_pos h]

theorem convex_neg (T : ConvTables α) (val : α) (h : val < 0) : fluid_convex T val = some 0 := by
  unfold fluid_convex
  rw [if_pos h]

theorem concave_large (T : ConvTables α) (val : α) (h : 128 ≤ val) :
    fluid_concave T val = some 1 := by
  unfold fluid_concave
  have hsz : ((FLUID_VEL_CB_SIZE : Nat) : α) = 128 := by norm_num [FLUID_VEL_CB_SIZE]
  have h0 : ¬ val < 0 := not_lt.mpr (le_trans (by norm_num) h)
  rw [if_neg h0, hsz, if_pos h]

theorem convex_large (T : ConvTables α) (val : α) (h : 128 ≤ val) :
    fluid_convex T val = some 1 := by
  unfold fluid_convex
  have hsz : ((FLUID_VEL_CB_SIZE : Nat) : α) = 128 := by norm_num [FLUID_VEL_CB_SIZE]
  have h0 : ¬ val < 0 := not_lt.mpr (le_trans (by norm_num) h)
  rw [if_neg h0, hsz, if_pos h]

/-- The lookup branch of `fluid_concave` and `fluid_convex`: for
`0 ≤ val < 128` both read their table at `⌊val⌋`, an index below 128. -/
theorem curves_lookup (T : ConvTables α) (val : α) (h0 : 0 ≤ val) (h1 : val < 128) :
    ∃ j : Nat, j < 128 ∧ ⌊val⌋ = (j : Int) ∧
      fluid_concave T val = T.fluid_concave_tab[j]? ∧
      fluid_convex T val = T.fluid_convex_tab[j]? := by
  have hsz : ((FLUID_VEL_CB_SIZE : Nat) : α) = 128 := by norm_num [FLUID_VEL_CB_SIZE]
  have hj : ∃ j : Nat, j < 128 ∧ ⌊val⌋ = (j : Int) := by
    obtain ⟨j, hj, hfl, _⟩ := tabGet_toInt T.fluid_concave_tab val 128 h0 (by exact_mod_cast h1)
    exact ⟨j, hj, hfl⟩
  obtain ⟨j, hj, hfl⟩ := hj
  refine ⟨j, hj, hfl, ?_, ?_⟩
  · unfold fluid_concave
    rw [if_neg (not_lt.mpr h0), hsz, if_neg (not_le.mpr h1)]
    simp [tabGet, toInt_of_nonneg val h0, hfl]
  · unfold fluid_convex
    rw [if_neg (not_lt.mpr h0), hsz, if_neg (not_le.mpr h1)]
    simp [tabGet, toInt_of_nonneg val h0, hfl]

end CurveReads

/-- C11: with the tables built by `fluid_conversion_config`, for both
`fluid_concave` and `fluid_convex` and every real `val`: the result is 0 when
`val < 0`, 1 when `val ≥ 128`, and otherwise the curve-table entry at the
truncated index `⌊val⌋`, which is below 128.  The boundary entries are pinned,
`concave(0) = 0`, `concave(127) = 1`, `convex(0) = 0`, `convex(127) = 1`, and
the interior loop of the builder leaves entries 0 and 127 of either table as it
found them, from any state `s`. -/
theorem curves_spec (peak val : ℝ) (s : ConvTables ℝ) :
    (val < 0 → fluid_concave (builtTables peak) val = some 0 ∧
      fluid_convex (builtTables peak) val = some 0) ∧
    (128 ≤ val → fluid_concave (builtTables peak) val = some 1 ∧
      fluid_convex (builtTables peak) val = some 1) ∧
    (0 ≤ val → val < 128 → ∃ j : Nat, j < 128 ∧ ⌊val⌋ = (j : Int) ∧
      fluid_concave (builtTables peak) val = (builtTables peak).fluid_concave_tab[j]? ∧
      fluid_convex (builtTables peak) val = (builtTables peak).fluid_convex_tab[j]? ∧
      ((builtTables peak).fluid_concave_tab[j]?).isSome ∧
      ((builtTables peak).fluid_convex_tab[j]?).isSome) ∧
    (fluid_concave (builtTables peak) 0 = some 0 ∧
      fluid_concave (builtTables peak) 127 = some 1 ∧
      fluid_convex (builtTables peak) 0 = some 0 ∧
      fluid_convex (builtTables peak) 127 = some 1) ∧
    ((config_curves peak s).fluid_concave_tab[0]? = s.fluid_concave_tab[0]? ∧
      (config_curves peak s).fluid_concave_tab[127]? = s.fluid_concave_tab[127]? ∧
      (config_curves peak s).fluid_convex_tab[0]? = s.fluid_convex_tab[0]? ∧
      (config_curves peak s).fluid_convex_tab[127]? = s.fluid_convex_tab[127]?) := by
  refine ⟨fun h => ⟨concave_neg _ val h, convex_neg _ val h⟩,
    fun h => ⟨concave_large _ val h, convex_large _ val h⟩, ?_, ?_,
    config_curves_ends_kept peak s⟩
  · intro h0 h1
    obtain ⟨j, hj, hfl, hcc, hcv⟩ := curves_lookup (builtTables peak) val h0 h1
    refine ⟨j, hj, hfl, hcc, hcv, ?_, ?_⟩
    · rw [built_concave_tab peak j hj]
      rfl
    · rw [built_convex_tab peak j hj]
      rfl
  · have hfl0 : ⌊(0 : ℝ)⌋ = ((0 : Nat) : Int) := by simp
    have hfl127 : ⌊(127 : ℝ)⌋ = ((127 : Nat) : Int) := by simp
    obtain ⟨j, hj, hfl, hcc, hcv⟩ :=
      curves_lookup (builtTables peak) 0 (le_refl _) (by norm_num)
    obtain ⟨k, hk, hflk, hcck, hcvk⟩ :=
      curves_lookup (builtTables peak) 127 (by norm_num) (by norm_num)
    have hj0 : j = 0 := by omega
    have hk127 : k = 127 := by omega
    subst hj0
    subst hk127
    rw [hcc, hcv, hcck, hcvk, built_concave_tab peak 0 (by norm_num),
      built_convex_tab peak 0 (by norm_num), built_concave_tab peak 127 (by norm_num),
      built_convex_tab peak 127 (by norm_num)]
    simp

/-- C11, witness: the floor at `val = -1`, the ceiling at `val = 128`, and the
pinned entries read at `val = 127` and `val = 0`. -/
theorem curves_spec_witness :
    fluid_concave (builtTables FLUID_PEAK_ATTENUATION) (-1) = some 0 ∧
    fluid_convex (builtTables FLUID_PEAK_ATTENUATION) 128 = some 1 ∧
    fluid_concave (builtTables FLUID_PEAK_ATTENUATION) 127 = some 1 ∧
    fluid_convex (builtTables FLUID_PEAK_ATTENUATION) 0 = some 0 :=
  ⟨((curves_spec FLUID_PEAK_ATTENUATION (-1) (initTables ℝ)).1 (by norm_num)).1,
    ((curves_spec FLUID_PEAK_ATTENUATION 128 (initTables ℝ)).2.1 (le_refl _)).2,
    (curves_spec FLUID_PEAK_ATTENUATION 0 (initTables ℝ)).2.2.2.1.2.1,
    (curves_spec FLUID_PEAK_ATTENUATION 0 (initTables ℝ)).2.2.2.1.2.2.1⟩

/-! ## Time constants -/

/-- The two range tests of the time-constant functions, `tc < lo` and then
`tc > hi`, are the clamp to `[lo, hi]`. -/
theorem tc_limit_eq_clamp (tc lo hi : ℝ) (h : lo ≤ hi) :
    (if (if tc < lo then lo else tc) > hi then hi else (if tc < lo then lo else tc)) =
      spec_clamp tc lo hi := by
  unfold spec_clamp
  by_cases h1 : tc < lo
  · simp only [if_pos h1, if_neg (not_lt.mpr h)]
  · simp only [if_neg h1]
    by_cases h2 : tc > hi
    · simp only [if_pos h2, if_pos (le_of_lt h2)]
    · simp only [if_neg h2]
      by_cases h3 : hi ≤ tc
      · rw [if_pos h3]
        exact le_antisymm (not_lt.mp h2) h3
      · simp only [if_neg h3]

/-- C12: for every real `tc`, `fluid_tc2sec_delay tc` is 0.0 when
`tc ≤ -32768`, in particular at -32768 and at -40000, and otherwise it is
`2 ^ (clamp(tc, -12000, 5000) / 1200)`, which is `fluid_tc2sec` at the clamped
value; the clamp is `max (-12000) (min tc 5000)`. -/
theorem tc2sec_delay_spec (tc : ℝ) :
    (tc ≤ -32768 → fluid_tc2sec_delay tc = 0) ∧
    (-32768 < tc →
      fluid_tc2sec_delay tc = (2 : ℝ) ^ (spec_clamp tc (-12000) 5000 / 1200) ∧
      fluid_tc2sec_delay tc = fluid_tc2sec (spec_clamp tc (-12000) 5000)) ∧
    spec_clamp tc (-12000) 5000 = max (-12000) (min tc 5000) ∧
    fluid_tc2sec_delay (-32768) = 0 ∧
    fluid_tc2sec_delay (-40000) = 0 := by
  have hzero : ∀ t : ℝ, t ≤ -32768 → fluid_tc2sec_delay t = 0 := by
    intro t ht
    unfold fluid_tc2sec_delay
    rw [if_pos ht]
  have hmain : -32768 < tc →
      fluid_tc2sec_delay tc = (2 : ℝ) ^ (spec_clamp tc (-12000) 5000 / 1200) := by
    intro ht
    unfold fluid_tc2sec_delay
    rw [if_neg (not_le.mpr ht)]
    simp only []
    rw [tc_limit_eq_clamp tc (-12000) 5000 (by norm_num)]
  refine ⟨hzero tc, fun ht => ⟨hmain ht, hmain ht⟩, ?_, hzero _ (le_refl _),
    hzero _ (by norm_num)⟩
  unfold spec_clamp
  by_cases h1 : tc < -12000
  · rw [if_pos h1, min_eq_left (by linarith), max_eq_left h1.le]
  · rw [if_neg h1]
    by_cases h2 : (5000 : ℝ) ≤ tc
    · rw [if_pos h2, min_eq_right h2, max_eq_right (by norm_num)]
    · rw [if_neg h2, min_eq_left (not_le.mp h2).le, max_eq_right (not_lt.mp h1)]

/-- C12, witness: the sentinel at -40000, the lower clamp at -20000, the upper
clamp at 6000, and an unclamped value. -/
theorem tc2sec_delay_spec_witness :
    fluid_tc2sec_delay (-40000) = 0 ∧
    fluid_tc2sec_delay (-20000) = (2 : ℝ) ^ ((-12000 : ℝ) / 1200) ∧
    fluid_tc2sec_delay 6000 = (2 : ℝ) ^ ((5000 : ℝ) / 1200) ∧
    fluid_tc2sec_delay 1200 = (2 : ℝ) ^ ((1200 : ℝ) / 1200) := by
  refine ⟨(tc2sec_delay_spec (-40000)).1 (by norm_num), ?_, ?_, ?_⟩
  · rw [((tc2sec_delay_spec (-20000)).2.1 (by norm_num)).1]
    norm_num [spec_clamp]
  · rw [((tc2sec_delay_spec 6000).2.1 (by norm_num)).1]
    norm_num [spec_clamp]
  · rw [((tc2sec_delay_spec 1200).2.1 (by norm_num)).1]
    norm_num [spec_clamp]

/-- The attack conversion above the sentinel: the clamp to `[-12000, 8000]`. -/
theorem tc2sec_attack_clamped (tc : ℝ) (ht : -32768 < tc) :
    fluid_tc2sec_attack tc = (2 : ℝ) ^ (spec_clamp tc (-12000) 8000 / 1200) := by
  unfold fluid_tc2sec_attack
  rw [if_neg (not_le.mpr ht)]
  simp only []
  rw [tc_limit_eq_clamp tc (-12000) 8000 (by norm_num)]

/-- C13: `fluid_tc2sec_attack` and `fluid_tc2sec_release` are the same
function: for every real `tc` both return 0.0 when `tc ≤ -32768` and otherwise
`2 ^ (clamp(tc, -12000, 8000) / 1200)`; so release equals attack everywhere, and
`fluid_tc2sec_attack tc = fluid_tc2sec_attack 8000` for every `tc ≥ 8000`, for
instance at 10000. -/
theorem tc2sec_attack_release (tc : ℝ) :
    fluid_tc2sec_release tc = fluid_tc2sec_attack tc ∧
    (tc ≤ -32768 → fluid_tc2sec_attack tc = 0 ∧ fluid_tc2sec_release tc = 0) ∧
    (-32768 < tc →
      fluid_tc2sec_attack tc = (2 : ℝ) ^ (spec_clamp tc (-12000) 8000 / 1200) ∧
      fluid_tc2sec_release tc = (2 : ℝ) ^ (spec_clamp tc (-12000) 8000 / 1200)) ∧
    (8000 ≤ tc → fluid_tc2sec_attack tc = fluid_tc2sec_attack 8000) ∧
    fluid_tc2sec_attack 10000 = fluid_tc2sec_attack 8000 := by
  have hsame : ∀ t : ℝ, fluid_tc2sec_release t = fluid_tc2sec_attack t := fun _ => rfl
  have hhigh : ∀ t : ℝ, 8000 ≤ t → fluid_tc2sec_attack t = fluid_tc2sec_attack 8000 := by
    intro t ht
    rw [tc2sec_attack_clamped t (by linarith), tc2sec_attack_clamped 8000 (by norm_num)]
    have h1 : spec_clamp t (-12000) 8000 = 8000 := by
      unfold spec_clamp
      rw [if_neg (not_lt.mpr (by linarith)), if_pos ht]
    have h2 : spec_clamp (8000 : ℝ) (-12000) 8000 = 8000 := by
      unfold spec_clamp
      rw [if_neg (by norm_num), if_pos (le_refl _)]
    rw [h1, h2]
  refine ⟨hsame tc, ?_, ?_, hhigh tc, hhigh 10000 (by norm_num)⟩
  · intro ht
    have h0 : fluid_tc2sec_attack tc = 0 := by
      unfold fluid_tc2sec_attack
      rw [if_pos ht]
    exact ⟨h0, (hsame tc).trans h0⟩
  · intro ht
    exact ⟨tc2sec_attack_clamped tc ht, (hsame tc).trans (tc2sec_attack_clamped tc ht)⟩

/-- C13, witness: at `tc = 10000` both functions give `2 ^ (8000 / 1200)`, and
at the sentinel both give 0. -/
theorem tc2sec_attack_release_witness :
    fluid_tc2sec_attack 10000 = (2 : ℝ) ^ ((8000 : ℝ) / 1200) ∧
    fluid_tc2sec_release 10000 = (2 : ℝ) ^ ((8000 : ℝ) / 1200) ∧
    fluid_tc2sec_release (-32768) = 0 := by
  have h := (tc2sec_attack_release 10000).2.2.1 (by norm_num)
  have hc : spec_clamp (10000 : ℝ) (-12000) 8000 = 8000 := by norm_num [spec_clamp]
  rw [hc] at h
  exact ⟨h.1, h.2, ((tc2sec_attack_release (-32768)).2.1 (le_refl _)).2⟩

/-! ## Absolute cents and Hertz -/

/-- Composing `fluid_hz2ct` with `fluid_act2hz` shifts every input by the same
constant, the value of the composition at 0. -/
theorem hz2ct_act2hz_shift (x : ℝ) :
    fluid_hz2ct (fluid_act2hz x) = x + fluid_hz2ct (fluid_act2hz 0) := by
  have hlog2 : Real.log 2 ≠ 0 := by
    have := Real.log_two_gt_d9
    linarith
  have hpow : (0 : ℝ) < (2 : ℝ) ^ (x / 1200) := Real.rpow_pos_of_pos (by norm_num) _
  unfold fluid_hz2ct fluid_act2hz
  have h1 : (8.176 : ℝ) * (2 : ℝ) ^ (x / 1200) / 440 = (8.176 / 440) * (2 : ℝ) ^ (x / 1200) := by
    ring
  rw [h1, Real.log_mul (by norm_num) (ne_of_gt hpow), Real.log_rpow (by norm_num)]
  simp only [zero_div, Real.rpow_zero, mul_one]
  field_simp
  ring

/-- The constant shift of the round trip: `6900 + 1200 * log (8.176 / 440) / log 2`
lies strictly between 0.04 and 0.05 cents. -/
theorem hz2ct_act2hz_zero_bounds :
    0.04 < fluid_hz2ct (fluid_act2hz 0) ∧ fluid_hz2ct (fluid_act2hz 0) < 0.05 := by
  have hl2lo := Real.log_two_gt_d9
  have hl2hi := Real.log_two_lt_d9
  have hl2pos : 0 < Real.log 2 := by linarith
  have hval : fluid_hz2ct (fluid_act2hz 0) =
      300 * Real.log ((8.176 / 440 : ℝ) ^ 4 * 2 ^ 23) / Real.log 2 := by
    unfold fluid_hz2ct fluid_act2hz
    simp only [zero_div, Real.rpow_zero, mul_one]
    rw [Real.log_mul (by norm_num) (by norm_num), Real.log_pow, Real.log_pow]
    field_simp
    ring
  have hr : (0 : ℝ) < (8.176 / 440 : ℝ) ^ 4 * 2 ^ 23 := by norm_num
  have hup := Real.log_le_sub_one_of_pos hr
  have hdown := Real.one_sub_inv_le_log_of_pos hr
  have hup2 : Real.log ((8.176 / 440 : ℝ) ^ 4 * 2 ^ 23) ≤ 0.0000984 := by
    refine le_trans hup ?_
    norm_num
  have hdown2 : (0.0000983 : ℝ) ≤ Real.log ((8.176 / 440 : ℝ) ^ 4 * 2 ^ 23) := by
    refine le_trans ?_ hdown
    norm_num
  rw [hval]
  constructor
  · rw [lt_div_iff₀ hl2pos]
    nlinarith
  · rw [div_lt_iff₀ hl2pos]
    nlinarith

/-- C14, counterexample: at `x = 0`, inside `[-1000, 12000]`, the round trip
`fluid_hz2ct (fluid_act2hz 0)` in exact real arithmetic is not 0. -/
theorem hz2ct_act2hz_zero_ne :
    (-1000 : ℝ) ≤ 0 ∧ (0 : ℝ) ≤ 12000 ∧ fluid_hz2ct (fluid_act2hz 0) ≠ 0 := by
  refine ⟨by norm_num, by norm_num, ?_⟩
  have := hz2ct_act2hz_zero_bounds.1
  intro h
  rw [h] at this
  norm_num at this

/-- C14, amended: in exact real arithmetic `fluid_hz2ct` inverts `fluid_act2hz`
up to a constant offset: for every real `x`, in particular in
`[-1000, 12000]`, `hz2ct (act2hz x) = x + d` with
`d = 6900 + 1200 * log (8.176 / 440) / log 2`, and `0.04 < d < 0.05`. -/
theorem hz2ct_act2hz_roundtrip (x : ℝ) :
    fluid_hz2ct (fluid_act2hz x) = x + (6900 + 1200 * Real.log (8.176 / 440) / Real.log 2) ∧
    0.04 < 6900 + 1200 * Real.log (8.176 / 440) / Real.log 2 ∧
    6900 + 1200 * Real.log (8.176 / 440) / Real.log 2 < 0.05 := by
  have hd : fluid_hz2ct (fluid_act2hz 0) =
      6900 + 1200 * Real.log (8.176 / 440) / Real.log 2 := by
    unfold fluid_hz2ct fluid_act2hz
    simp only [zero_div, Real.rpow_zero, mul_one]
  rw [← hd]
  exact ⟨hz2ct_act2hz_shift x, hz2ct_act2hz_zero_bounds⟩

/-! ## Ranges of the gains and of the curves -/

/-- Every entry of the pan table is in `[0, 1]`. -/
theorem pan_tab_range (j : Nat) (hj : j < 1002) :
    0 ≤ FLUID_PAN_TAB j ∧ FLUID_PAN_TAB j ≤ 1 := by
  rw [pan_tab_formula]
  have hpi := Real.pi_pos
  have hj1 : (j : ℝ) ≤ 1001 := by
    have : j ≤ 1001 := by omega
    exact_mod_cast this
  have hj0 : (0 : ℝ) ≤ (j : ℝ) := Nat.cast_nonneg j
  constructor
  · apply Real.sin_nonneg_of_nonneg_of_le_pi
    · positivity
    · rw [div_le_iff₀ (by norm_num)]
      nlinarith
  · exact Real.sin_le_one _

/-- On the built tables `fluid_pan` always returns a value in `[0, 1]`. -/
theorem pan_range (peak c : ℝ) (left : Int) :
    ∃ v : ℝ, fluid_pan (builtTables peak) c left = some v ∧ 0 ≤ v ∧ v ≤ 1 := by
  have hright : ∀ d : ℝ, ∃ v : ℝ, fluid_pan (builtTables peak) d 0 = some v ∧ 0 ≤ v ∧ v ≤ 1 := by
    intro d
    by_cases h0 : d ≤ -500
    · exact ⟨0, pan_right_low _ d h0, le_refl _, by norm_num⟩
    · by_cases h1 : 500 ≤ d
      · exact ⟨1, pan_right_high _ d h1, by norm_num, le_refl _⟩
      · obtain ⟨j, hj, _, hpan⟩ := pan_right_lookup peak d (not_le.mp h0) (not_le.mp h1)
        obtain ⟨hr0, hr1⟩ := pan_tab_range j (by omega)
        exact ⟨_, hpan, hr0, hr1⟩
  by_cases hl : left = 0
  · rw [hl]
    exact hright c
  · have : fluid_pan (builtTables peak) c left = fluid_pan (builtTables peak) (-c) 0 := by
      simp [fluid_pan, hl]
    rw [this]
    exact hright (-c)

/-- On the built tables `fluid_balance` always returns a value in `[0, 1]`. -/
theorem balance_range (peak b : ℝ) (left : Int) :
    ∃ v : ℝ, fluid_balance (builtTables peak) b left = some v ∧ 0 ≤ v ∧ v ≤ 1 := by
  unfold fluid_balance
  by_cases h0 : b = 0
  · rw [if_pos h0]
    exact ⟨1, rfl, by norm_num, le_refl _⟩
  · rw [if_neg h0]
    by_cases h1 : (left ≠ 0 ∧ b < 0) ∨ (¬ left ≠ 0 ∧ b > 0)
    · rw [if_pos h1]
      exact ⟨1, rfl, by norm_num, le_refl _⟩
    · rw [if_neg h1]
      exact cb2amp_range peak _

/-- C15: every gain-returning conversion stays in `[0, 1]`, with the tables
built by `fluid_conversion_config`: for every real input and either channel
flag, `fluid_cb2amp`, `fluid_balance` and `fluid_pan` return a value, and the
value lies between 0 and 1. -/
theorem gains_in_unit_interval (peak cb b c : ℝ) (left : Int) :
    (∃ v : ℝ, fluid_cb2amp (builtTables peak) cb = some v ∧ 0 ≤ v ∧ v ≤ 1) ∧
    (∃ v : ℝ, fluid_balance (builtTables peak) b left = some v ∧ 0 ≤ v ∧ v ≤ 1) ∧
    (∃ v : ℝ, fluid_pan (builtTables peak) c left = some v ∧ 0 ≤ v ∧ v ≤ 1) :=
  ⟨cb2amp_range peak cb, balance_range peak b left, pan_range peak c left⟩

/-- The loop value `x` for the peak attenuation 960 is non-increasing in `i`
from `i = 1` on. -/
theorem curve_x_antitone (i k : Nat) (hi : 1 ≤ i) (hik : i ≤ k) :
    curve_x FLUID_PEAK_ATTENUATION k ≤ curve_x FLUID_PEAK_ATTENUATION i := by
  unfold curve_x FLUID_PEAK_ATTENUATION
  have hl10 : 0 < Real.log 10 := Real.log_pos (by norm_num)
  have hi0 : (0 : ℝ) < (i : ℝ) := by exact_mod_cast hi
  have hcast : (i : ℝ) ≤ (k : ℝ) := by exact_mod_cast hik
  have hden : (0 : ℝ) < ((FLUID_VEL_CB_SIZE - 1 : Nat) : ℝ) := by norm_num [FLUID_VEL_CB_SIZE]
  have hlog : Real.log ((i : ℝ) / ((FLUID_VEL_CB_SIZE - 1 : Nat) : ℝ)) ≤
      Real.log ((k : ℝ) / ((FLUID_VEL_CB_SIZE - 1 : Nat) : ℝ)) :=
    Real.log_le_log (div_pos hi0 hden) (div_le_div_of_nonneg_right hcast hden.le)
  rw [div_le_div_iff_of_pos_right hl10]
  nlinarith

/-- The loop value `x` for the peak attenuation 960 lies in `[0, 1]` for every
`i` from 1 to 127. -/
theorem curve_x_range (i : Nat) (h1 : 1 ≤ i) (h2 : i ≤ 127) :
    0 ≤ curve_x FLUID_PEAK_ATTENUATION i ∧ curve_x FLUID_PEAK_ATTENUATION i ≤ 1 := by
  have hl10 : 0 < Real.log 10 := Real.log_pos (by norm_num)
  have h127 : curve_x FLUID_PEAK_ATTENUATION 127 = 0 := by
    unfold curve_x
    norm_num [FLUID_VEL_CB_SIZE]
  have hone : curve_x FLUID_PEAK_ATTENUATION 1 ≤ 1 := by
    unfold curve_x FLUID_PEAK_ATTENUATION
    have hlog : Real.log (((1 : Nat) : ℝ) / ((FLUID_VEL_CB_SIZE - 1 : Nat) : ℝ)) =
        -Real.log 127 := by
      have hinv : ((1 : Nat) : ℝ) / ((FLUID_VEL_CB_SIZE - 1 : Nat) : ℝ) = (127 : ℝ)⁻¹ := by
        norm_num [FLUID_VEL_CB_SIZE]
      rw [hinv, Real.log_inv]
    have h5 : 5 * Real.log 127 ≤ 12 * Real.log 10 := by
      have hpow : Real.log ((127 : ℝ) ^ 5) ≤ Real.log ((10 : ℝ) ^ 12) :=
        Real.log_le_log (by norm_num) (by norm_num)
      rw [Real.log_pow, Real.log_pow] at hpow
      exact_mod_cast hpow
    rw [hlog, div_le_iff₀ hl10]
    linarith
  constructor
  · rw [← h127]
    exact curve_x_antitone i 127 h1 h2
  · exact le_trans (curve_x_antitone 1 i (le_refl _) h1) hone

/-- Entry `j` of the concave table for the peak attenuation 960 is in `[0, 1]`. -/
theorem concave_entry_range (j : Nat) (hj : j < 128) :
    (0 : ℝ) ≤ (if j = 0 then 0 else if j = 127 then 1 else curve_x FLUID_PEAK_ATTENUATION (127 - j)) ∧
      (if j = 0 then 0 else if j = 127 then 1 else curve_x FLUID_PEAK_ATTENUATION (127 - j)) ≤ (1 : ℝ) := by
  by_cases h0 : j = 0
  · simp [h0]
  · by_cases h127 : j = 127
    · simp [h127]
    · simp only [if_neg h0, if_neg h127]
      exact curve_x_range (127 - j) (by omega) (by omega)

/-- Entry `j` of the convex table for the peak attenuation 960 is in `[0, 1]`. -/
theorem convex_entry_range (j : Nat) (hj : j < 128) :
    (0 : ℝ) ≤ (if j = 0 then 0 else if j = 127 then 1 else 1 - curve_x FLUID_PEAK_ATTENUATION j) ∧
      (if j = 0 then 0 else if j = 127 then 1 else 1 - curve_x FLUID_PEAK_ATTENUATION j) ≤ (1 : ℝ) := by
  by_cases h0 : j = 0
  · simp [h0]
  · by_cases h127 : j = 127
    · simp [h127]
    · simp only [if_neg h0, if_neg h127]
      obtain ⟨hx0, hx1⟩ := curve_x_range j (by omega) (by omega)
      constructor <;> linarith

/-- The entries of the concave table for the peak attenuation 960 are
non-decreasing in the index. -/
theorem concave_entry_mono (j k : Nat) (hjk : j ≤ k) (hk : k < 128) :
    (if j = 0 then 0 else if j = 127 then 1 else curve_x FLUID_PEAK_ATTENUATION (127 - j)) ≤
      ((if k = 0 then 0 else if k = 127 then 1 else curve_x FLUID_PEAK_ATTENUATION (127 - k)) : ℝ) := by
  by_cases h0 : j = 0
  · rw [if_pos h0]
    exact (concave_entry_range k hk).1
  · by_cases hk127 : k = 127
    · have hk0 : ¬ k = 0 := by omega
      rw [if_neg hk0, if_pos hk127]
      exact (concave_entry_range j (by omega)).2
    · have hj127 : ¬ j = 127 := by omega
      have hk0 : ¬ k = 0 := by omega
      rw [if_neg h0, if_neg hj127, if_neg hk0, if_neg hk127]
      exact curve_x_antitone (127 - k) (127 - j) (by omega) (by omega)

/-- The entries of the convex table for the peak attenuation 960 are
non-decreasing in the index. -/
theorem convex_entry_mono (j k : Nat) (hjk : j ≤ k) (hk : k < 128) :
    (if j = 0 then 0 else if j = 127 then 1 else 1 - curve_x FLUID_PEAK_ATTENUATION j) ≤
      ((if k = 0 then 0 else if k = 127 then 1 else 1 - curve_x FLUID_PEAK_ATTENUATION k) : ℝ) := by
  by_cases h0 : j = 0
  · rw [if_pos h0]
    exact (convex_entry_range k hk).1
  · by_cases hk127 : k = 127
    · have hk0 : ¬ k = 0 := by omega
      rw [if_neg hk0, if_pos hk127]
      exact (convex_entry_range j (by omega)).2
    · have hj127 : ¬ j = 127 := by omega
      have hk0 : ¬ k = 0 := by omega
      rw [if_neg h0, if_neg hj127, if_neg hk0, if_neg hk127]
      have := curve_x_antitone j k (by omega) hjk
      linarith

/-- The lookup branch of the two curves on the built tables, with the entries
in closed form. -/
theorem curves_value (peak val : ℝ) (h0 : 0 ≤ val) (h1 : val < 128) :
    ∃ j : Nat, j < 128 ∧ ⌊val⌋ = (j : Int) ∧
      fluid_concave (builtTables peak) val =
        some (if j = 0 then 0 else if j = 127 then 1 else curve_x peak (127 - j)) ∧
      fluid_convex (builtTables peak) val =
        some (if j = 0 then 0 else if j = 127 then 1 else 1 - curve_x peak j) := by
  obtain ⟨j, hj, hfl, hcc, hcv⟩ := curves_lookup (builtTables peak) val h0 h1
  exact ⟨j, hj, hfl, hcc.trans (built_concave_tab peak j hj),
    hcv.trans (built_convex_tab peak j hj)⟩

/-- For the peak attenuation 960 both curves return a value in `[0, 1]` at
every real input. -/
theorem curves_range (val : ℝ) :
    ∃ v w : ℝ, fluid_concave (builtTables FLUID_PEAK_ATTENUATION) val = some v ∧
      fluid_convex (builtTables FLUID_PEAK_ATTENUATION) val = some w ∧
      0 ≤ v ∧ v ≤ 1 ∧ 0 ≤ w ∧ w ≤ 1 := by
  by_cases h0 : val < 0
  · exact ⟨0, 0, concave_neg _ val h0, convex_neg _ val h0, le_refl _, by norm_num,
      le_refl _, by norm_num⟩
  · by_cases h1 : 128 ≤ val
    · exact ⟨1, 1, concave_large _ val h1, convex_large _ val h1, by norm_num, le_refl _,
        by norm_num, le_refl _⟩
    · obtain ⟨j, hj, _, hcc, hcv⟩ :=
        curves_value FLUID_PEAK_ATTENUATION val (not_lt.mp h0) (not_le.mp h1)
      exact ⟨_, _, hcc, hcv, (concave_entry_range j hj).1, (concave_entry_range j hj).2,
        (convex_entry_range j hj).1, (convex_entry_range j hj).2⟩

/-- C16: for the peak attenuation `FLUID_PEAK_ATTENUATION = 960`, the interior
value `x = (-200 / peak) * 2 * log10 (i / 127)` is in `[0, 1]` for `i` in
`1..126`; each of the 128 entries of the concave and of the convex table built
by `fluid_conversion_config` lies in `[0, 1]`; hence `fluid_concave val` and
`fluid_convex val` lie in `[0, 1]` for every real `val`. -/
theorem curve_tables_in_unit_interval (j : Nat) (val : ℝ) :
    (1 ≤ j → j ≤ 126 →
      0 ≤ curve_x FLUID_PEAK_ATTENUATION j ∧ curve_x FLUID_PEAK_ATTENUATION j ≤ 1) ∧
    ((builtTables FLUID_PEAK_ATTENUATION).fluid_concave_tab.size = 128 ∧
      (builtTables FLUID_PEAK_ATTENUATION).fluid_convex_tab.size = 128) ∧
    (j < 128 → ∃ a b : ℝ,
      (builtTables FLUID_PEAK_ATTENUATION).fluid_concave_tab[j]? = some a ∧
      (builtTables FLUID_PEAK_ATTENUATION).fluid_convex_tab[j]? = some b ∧
      0 ≤ a ∧ a ≤ 1 ∧ 0 ≤ b ∧ b ≤ 1) ∧
    (∃ v w : ℝ, fluid_concave (builtTables FLUID_PEAK_ATTENUATION) val = some v ∧
      fluid_convex (builtTables FLUID_PEAK_ATTENUATION) val = some w ∧
      0 ≤ v ∧ v ≤ 1 ∧ 0 ≤ w ∧ w ≤ 1) := by
  refine ⟨fun h1 h2 => curve_x_range j h1 (by omega), ?_, ?_, curves_range val⟩
  · obtain ⟨_, _, h3, h4, _⟩ := builtTables_wellSized FLUID_PEAK_ATTENUATION
    exact ⟨h3, h4⟩
  · intro hj
    exact ⟨_, _, built_concave_tab _ j hj, built_convex_tab _ j hj,
      (concave_entry_range j hj).1, (concave_entry_range j hj).2,
      (convex_entry_range j hj).1, (convex_entry_range j hj).2⟩

/-- C16, witness: entry 1 of both tables and the curves at `val = 1.5`. -/
theorem curve_tables_in_unit_interval_witness :
    (0 ≤ curve_x FLUID_PEAK_ATTENUATION 1 ∧ curve_x FLUID_PEAK_ATTENUATION 1 ≤ 1) ∧
    (∃ v w : ℝ, fluid_concave (builtTables FLUID_PEAK_ATTENUATION) 1.5 = some v ∧
      fluid_convex (builtTables FLUID_PEAK_ATTENUATION) 1.5 = some w ∧
      0 ≤ v ∧ v ≤ 1 ∧ 0 ≤ w ∧ w ≤ 1) :=
  ⟨(curve_tables_in_unit_interval 1 1.5).1 (le_refl _) (by norm_num),
    (curve_tables_in_unit_interval 1 1.5).2.2.2⟩

/-! ## Table reads stay inside the tables -/

/-- A table read returns a value exactly when the index is inside the array. -/
theorem tabGet_isSome_iff {α : Type} (tab : Array α) (i : Int) :
    (tabGet tab i).isSome ↔ 0 ≤ i ∧ i < (tab.size : Int) := by
  unfold tabGet
  by_cases h : 0 ≤ i
  · rw [if_pos h]
    by_cases hlt : i.toNat < tab.size
    · have : i < (tab.size : Int) := by omega
      simp [Array.getElem?_eq_getElem hlt, h, this]
    · have hn : ¬ i < (tab.size : Int) := by omega
      have hnone : tab[i.toNat]? = none := Array.getElem?_eq_none_iff.mpr (by omega)
      simp [hnone, hn]
  · simp [h]

section InBounds

variable {α : Type} [LinearOrderedField α] [FloorRing α]

/-- The truncated index of a value in `[0, n)` is in `[0, n - 1]`. -/
theorem toInt_range (x : α) (n : Nat) (h0 : 0 ≤ x) (h1 : x < (n : α)) :
    0 ≤ toInt x ∧ toInt x ≤ (n : Int) - 1 := by
  rw [toInt_of_nonneg x h0]
  have hlt : ⌊x⌋ < (n : Int) := by
    apply Int.floor_lt.mpr
    exact_mod_cast h1
  exact ⟨Int.floor_nonneg.mpr h0, by omega⟩

/-- A read at the truncated index of a value in `[0, n)` from a table of `n`
entries returns a value. -/
theorem tabGet_toInt_isSome (tab : Array α) (x : α) (n : Nat) (hn : tab.size = n)
    (h0 : 0 ≤ x) (h1 : x < (n : α)) : (tabGet tab (toInt x)).isSome := by
  rw [tabGet_isSome_iff, hn]
  obtain ⟨h2, h3⟩ := toInt_range x n h0 h1
  exact ⟨h2, by omega⟩

theorem band_isSome (T : ConvTables α) (hT : T.fluid_ct2hz_tab.size = FLUID_CENTS_HZ_SIZE)
    (b x : α) (h0 : 0 ≤ x) (h1 : x < 1200) :
    ((tabGet T.fluid_ct2hz_tab (toInt x)).map (fun t => b * t)).isSome := by
  rw [Option.isSome_map']
  exact tabGet_toInt_isSome _ x 1200 hT h0 (by exact_mod_cast h1)

/-- On tables of the declared sizes `fluid_ct2hz_real` returns a value at every
input outside the first band `[0, 900)`. -/
theorem ct2hz_real_isSome (T : ConvTables α) (hT : WellSized T) (cents : α)
    (hc : cents < 0 ∨ 900 ≤ cents) :
    (fluid_ct2hz_real T cents).isSome := by
  unfold fluid_ct2hz_real
  by_cases c0 : cents < 0
  · rw [if_pos c0]
    rfl
  · rw [if_neg c0]
    have h0 : 0 ≤ cents := not_lt.mp c0
    have c1 : ¬ cents < 900 := by
      rcases hc with h | h
      · exact absurd h c0
      · exact not_lt.mpr h
    rw [if_neg c1]
    by_cases c2 : cents < 2100
    · rw [if_pos c2]
      exact band_isSome T hT.1 13.75 (cents - 900) (by linarith) (by linarith)
    rw [if_neg c2]
    by_cases c3 : cents < 3300
    · rw [if_pos c3]
      exact band_isSome T hT.1 27.5 (cents - 2100) (by linarith) (by linarith)
    rw [if_neg c3]
    by_cases c4 : cents < 4500
    · rw [if_pos c4]
      exact band_isSome T hT.1 55.0 (cents - 3300) (by linarith) (by linarith)
    rw [if_neg c4]
    by_cases c5 : cents < 5700
    · rw [if_pos c5]
      exact band_isSome T hT.1 110.0 (cents - 4500) (by linarith) (by linarith)
    rw [if_neg c5]
    by_cases c6 : cents < 6900
    · rw [if_pos c6]
      exact band_isSome T hT.1 220.0 (cents - 5700) (by linarith) (by linarith)
    rw [if_neg c6]
    by_cases c7 : cents < 8100
    · rw [if_pos c7]
      exact band_isSome T hT.1 440.0 (cents - 6900) (by linarith) (by linarith)
    rw [if_neg c7]
    by_cases c8 : cents < 9300
    · rw [if_pos c8]
      exact band_isSome T hT.1 880.0 (cents - 8100) (by linarith) (by linarith)
    rw [if_neg c8]
    by_cases c9 : cents < 10500
    · rw [if_pos c9]
      exact band_isSome T hT.1 1760.0 (cents - 9300) (by linarith) (by linarith)
    rw [if_neg c9]
    by_cases c10 : cents < 11700
    · rw [if_pos c10]
      exact band_isSome T hT.1 3520.0 (cents - 10500) (by linarith) (by linarith)
    rw [if_neg c10]
    by_cases c11 : cents < 12900
    · rw [if_pos c11]
      exact band_isSome T hT.1 7040.0 (cents - 11700) (by linarith) (by linarith)
    rw [if_neg c11]
    by_cases c12 : cents < 14100
    · rw [if_pos c12]
      exact band_isSome T hT.1 14080.0 (cents - 12900) (by linarith) (by linarith)
    rw [if_neg c12]
    rfl

/-- On tables of the declared sizes `fluid_cb2amp` always returns a value. -/
theorem cb2amp_isSome (T : ConvTables α) (hT : WellSized T) (cb : α) :
    (fluid_cb2amp T cb).isSome := by
  unfold fluid_cb2amp
  by_cases h0 : cb < 0
  · rw [if_pos h0]
    rfl
  · rw [if_neg h0]
    by_cases h1 : cb ≥ (FLUID_CB_AMP_SIZE : α)
    · rw [if_pos h1]
      rfl
    · rw [if_neg h1]
      exact tabGet_toInt_isSome _ cb FLUID_CB_AMP_SIZE hT.2.1 (not_lt.mp h0) (not_le.mp h1)

/-- On tables of the declared sizes both curves always return a value. -/
theorem curves_isSome (T : ConvTables α) (hT : WellSized T) (val : α) :
    (fluid_concave T val).isSome ∧ (fluid_convex T val).isSome := by
  unfold fluid_concave fluid_convex
  by_cases h0 : val < 0
  · simp only [if_pos h0]
    exact ⟨rfl, rfl⟩
  · simp only [if_neg h0]
    by_cases h1 : val ≥ (FLUID_VEL_CB_SIZE : α)
    · simp only [if_pos h1]
      exact ⟨rfl, rfl⟩
    · simp only [if_neg h1]
      exact ⟨tabGet_toInt_isSome _ val FLUID_VEL_CB_SIZE hT.2.2.1 (not_lt.mp h0) (not_le.mp h1),
        tabGet_toInt_isSome _ val FLUID_VEL_CB_SIZE hT.2.2.2.1 (not_lt.mp h0) (not_le.mp h1)⟩

/-- On tables of the declared sizes `fluid_pan` always returns a value. -/
theorem pan_isSome (T : ConvTables α) (hT : WellSized T) (c : α) (left : Int) :
    (fluid_pan T c left).isSome := by
  have hright : ∀ d : α, (fluid_pan T d 0).isSome := by
    intro d
    by_cases h0 : d ≤ -500
    · rw [pan_right_low T d h0]
      rfl
    · by_cases h1 : 500 ≤ d
      · rw [pan_right_high T d h1]
        rfl
      · have hd : fluid_pan T d 0 =
            tabGet T.fluid_pan_tab (toInt (toFluidReal (d + 500))) := by
          have h1' : ¬ d ≥ 500 := h1
          simp only [fluid_pan, ne_eq, not_true_eq_false, if_false, h0, h1']
        obtain ⟨j, hj, hidx⟩ := pan_index d (not_le.mp h0) (not_le.mp h1)
        have hsz : T.fluid_pan_tab.size = 1002 := hT.2.2.2.2
        rw [hd, tabGet_isSome_iff, hidx, hsz]
        omega
  by_cases hl : left = 0
  · rw [hl]
    exact hright c
  · have : fluid_pan T c left = fluid_pan T (-c) 0 := by
      simp [fluid_pan, hl]
    rw [this]
    exact hright (-c)

/-- On tables of the declared sizes `fluid_balance` always returns a value. -/
theorem balance_isSome (T : ConvTables α) (hT : WellSized T) (b : α) (left : Int) :
    (fluid_balance T b left).isSome := by
  unfold fluid_balance
  by_cases h0 : b = 0
  · rw [if_pos h0]
    rfl
  · rw [if_neg h0]
    by_cases h1 : (left ≠ 0 ∧ b < 0) ∨ (¬ left ≠ 0 ∧ b > 0)
    · rw [if_pos h1]
      rfl
    · rw [if_neg h1]
      exact cb2amp_isSome T hT _

end InBounds

/-- Every table read other than the first band of `fluid_ct2hz_real` stays
inside its table: on tables of the declared sizes the functions return a value
at every input, `fluid_ct2hz_real` at every input outside `[0, 900)`. -/
theorem lookups_in_bounds_elsewhere {α : Type} [LinearOrderedField α] [FloorRing α]
    (T : ConvTables α) (hT : WellSized T) (cents cb val c b : α) (left : Int) :
    (cents < 0 ∨ 900 ≤ cents → (fluid_ct2hz_real T cents).isSome) ∧
    (fluid_ct2hz T cents).isSome ∧ (fluid_cb2amp T cb).isSome ∧
    (fluid_concave T val).isSome ∧ (fluid_convex T val).isSome ∧
    (fluid_pan T c left).isSome ∧ (fluid_balance T b left).isSome := by
  refine ⟨ct2hz_real_isSome T hT cents, ?_, cb2amp_isSome T hT cb,
    (curves_isSome T hT val).1, (curves_isSome T hT val).2, pan_isSome T hT c left,
    balance_isSome T hT b left⟩
  unfold fluid_ct2hz
  apply ct2hz_real_isSome T hT
  right
  by_cases h1 : cents ≥ 13500
  · rw [if_pos h1]
    norm_num
  · rw [if_neg h1]
    by_cases h2 : cents < 1500
    · rw [if_pos h2]
      norm_num
    · rw [if_neg h2]
      linarith [not_lt.mp h2]

/-- C17, the failing input: `cents = 900 - 2 ^ (-43)`, the largest number of
the format below 900, is in the first band of `fluid_ct2hz_real`; the sum
`cents + 300` rounds to 1200, the index `(int)(cents + 300)` is 1200, one past
the last entry of the table of 1200 entries, and the read is outside the
table. -/
theorem ct2hz_real_reads_past_table :
    toFluidReal (900 - 1 / 2 ^ 43 : ℝ) = 900 - 1 / 2 ^ 43 ∧
    (0 : ℝ) ≤ 900 - 1 / 2 ^ 43 ∧ (900 - 1 / 2 ^ 43 : ℝ) < 900 ∧
    toInt (toFluidReal ((900 - 1 / 2 ^ 43 : ℝ) + 300)) = 1200 ∧
    (builtTables FLUID_PEAK_ATTENUATION).fluid_ct2hz_tab.size = 1200 ∧
    fluid_ct2hz_real (builtTables FLUID_PEAK_ATTENUATION) (900 - 1 / 2 ^ 43) = none := by
  have hidx : toInt (toFluidReal ((900 - 1 / 2 ^ 43 : ℝ) + 300)) = 1200 := by
    rw [toFluidReal_sum_1200, toInt_of_nonneg _ (by norm_num)]
    simp
  exact ⟨toFluidReal_inputs.1, by norm_num, by norm_num, hidx,
    (builtTables_wellSized _).1,
    first_band_outside _ _ (by norm_num) (by norm_num) hidx⟩

/-- The first band of `fluid_ct2hz_real`, base 6.875 and index `m + 300`, in the
closed form of the other bands. -/
theorem first_band_formula (m : ℝ) :
    (6.875 : ℝ) * (2 : ℝ) ^ ((m + 300) / 1200) = 440 * (2 : ℝ) ^ ((m - 6900) / 1200) := by
  have hexp : (m + 300) / 1200 = (m - 6900) / 1200 + ((6 : Nat) : ℝ) := by
    push_cast
    ring
  rw [hexp, Real.rpow_add (by norm_num : (0 : ℝ) < 2), Real.rpow_natCast]
  ring

/-- The first band when the sum `cents + 300` is exact: the index is
`⌊cents⌋ + 300` and the band computes the closed form of the other bands. -/
theorem first_band_exact (peak cents : ℝ) (h0 : 0 ≤ cents) (h1 : cents < 900)
    (hfl : toFluidReal (cents + 300) = cents + 300) :
    fluid_ct2hz_real (builtTables peak) cents =
      some (440 * (2 : ℝ) ^ (((⌊cents⌋ : ℝ) - 6900) / 1200)) := by
  have hf0 : (0 : Int) ≤ ⌊cents⌋ := Int.floor_nonneg.mpr h0
  have hf1 : ⌊cents⌋ < 900 := Int.floor_lt.mpr (by exact_mod_cast h1)
  have hidx : toInt (toFluidReal (cents + 300)) = (((⌊cents⌋ + 300).toNat : Nat) : Int) := by
    rw [hfl, toInt_of_nonneg _ (by linarith)]
    have : ⌊cents + 300⌋ = ⌊cents⌋ + 300 := by
      have h300 : cents + 300 = cents + ((300 : Int) : ℝ) := by norm_num
      rw [h300, Int.floor_add_int]
    omega
  rw [first_band_lookup peak cents h0 h1 _ hidx (by omega), ← first_band_formula]
  have hcast : (((⌊cents⌋ + 300).toNat : Nat) : ℝ) = (⌊cents⌋ : ℝ) + 300 := by
    have h2 : (((⌊cents⌋ + 300).toNat : Nat) : Int) = ⌊cents⌋ + 300 :=
      Int.toNat_of_nonneg (by omega)
    have h3 : ((((⌊cents⌋ + 300).toNat : Nat) : Int) : ℝ) = ((⌊cents⌋ + 300 : Int) : ℝ) := by
      rw [h2]
    push_cast at h3
    exact h3
  rw [hcast]

/-- C18, counterexample: at `cents = 400 - 2 ^ (-44)`, a number of the format
inside `[0, 14100)`, the sum `cents + 300` rounds to 700, so the first band
reads entry 700 and returns `6.875 * 2 ^ (700 / 1200)`, the value for 400
cents; the claimed closed form uses `⌊cents⌋ = 399` and is smaller. -/
theorem ct2hz_real_first_band_formula_fails :
    toFluidReal (400 - 1 / 2 ^ 44 : ℝ) = 400 - 1 / 2 ^ 44 ∧
    (0 : ℝ) ≤ 400 - 1 / 2 ^ 44 ∧ (400 - 1 / 2 ^ 44 : ℝ) < 14100 ∧
    fluid_ct2hz_real (builtTables FLUID_PEAK_ATTENUATION) (400 - 1 / 2 ^ 44) =
      some (6.875 * (2 : ℝ) ^ ((700 : ℝ) / 1200)) ∧
    ⌊(400 - 1 / 2 ^ 44 : ℝ)⌋ = 399 ∧
    fluid_ct2hz_real (builtTables FLUID_PEAK_ATTENUATION) (400 - 1 / 2 ^ 44) ≠
      some (440 * (2 : ℝ) ^ (((⌊(400 - 1 / 2 ^ 44 : ℝ)⌋ : ℝ) - 6900) / 1200)) := by
  have hfloor : ⌊(400 - 1 / 2 ^ 44 : ℝ)⌋ = 399 := by
    rw [Int.floor_eq_iff]
    norm_num
  have hidx : toInt (toFluidReal ((400 - 1 / 2 ^ 44 : ℝ) + 300)) = ((700 : Nat) : Int) := by
    rw [toFluidReal_sum_700, toInt_of_nonneg _ (by norm_num)]
    simp
  have hval : fluid_ct2hz_real (builtTables FLUID_PEAK_ATTENUATION) (400 - 1 / 2 ^ 44) =
      some (6.875 * (2 : ℝ) ^ ((700 : ℝ) / 1200)) := by
    rw [first_band_lookup _ _ (by norm_num) (by norm_num) 700 hidx (by norm_num)]
    norm_num
  refine ⟨toFluidReal_inputs.2.1, by norm_num, by norm_num, hval, hfloor, ?_⟩
  rw [hval, hfloor]
  intro h
  have heq := Option.some.inj h
  have hform := first_band_formula 399
  have hlt : (2 : ℝ) ^ (((399 : ℝ) + 300) / 1200) < (2 : ℝ) ^ ((700 : ℝ) / 1200) :=
    Real.rpow_lt_rpow_of_exponent_lt (by norm_num) (by norm_num)
  push_cast at heq
  rw [← hform] at heq
  linarith

/-- C18, amended: on the tables built by `fluid_conversion_config`, the eleven
band branches from 900 cents up implement one closed form: for every `cents`
in `[900, 14100)` the result is `440 * 2 ^ ((⌊cents⌋ - 6900) / 1200)`; for
`cents < 0` it is 1.0.  The first band `[0, 900)` reads the index
`i = (int)(cents + 300)`, the truncation of the sum as rounded to the format,
against the base 6.875: whenever `i ≤ 1199` the result is
`6.875 * 2 ^ (i / 1200) = 440 * 2 ^ ((i - 7200) / 1200)`.  That is the same
closed form whenever the sum is exact, so that `i = ⌊cents⌋ + 300`; so it is at
every integer number of cents from 0 to 899. -/
theorem ct2hz_real_closed_form (peak cents : ℝ) :
    (900 ≤ cents → cents < 14100 →
      fluid_ct2hz_real (builtTables peak) cents =
        some (440 * (2 : ℝ) ^ (((⌊cents⌋ : ℝ) - 6900) / 1200))) ∧
    (cents < 0 → fluid_ct2hz_real (builtTables peak) cents = some 1) ∧
    (0 ≤ cents → cents < 900 → ∀ i : Nat,
      toInt (toFluidReal (cents + 300)) = (i : Int) → i ≤ 1199 →
      fluid_ct2hz_real (builtTables peak) cents =
        some (6.875 * (2 : ℝ) ^ ((i : ℝ) / 1200)) ∧
      (6.875 : ℝ) * (2 : ℝ) ^ ((i : ℝ) / 1200) =
        440 * (2 : ℝ) ^ (((i : ℝ) - 7200) / 1200)) ∧
    (0 ≤ cents → cents < 900 → toFluidReal (cents + 300) = cents + 300 →
      fluid_ct2hz_real (builtTables peak) cents =
        some (440 * (2 : ℝ) ^ (((⌊cents⌋ : ℝ) - 6900) / 1200))) ∧
    (∀ n : Nat, n < 900 →
      fluid_ct2hz_real (builtTables peak) (n : ℝ) =
        some (440 * (2 : ℝ) ^ (((n : ℝ) - 6900) / 1200))) := by
  refine ⟨ct2hz_real_closed peak cents, ?_, ?_, first_band_exact peak cents, ?_⟩
  · intro h
    unfold fluid_ct2hz_real
    rw [if_pos h]
  · intro h0 h1 i hi hlt
    refine ⟨first_band_lookup peak cents h0 h1 i hi (by omega), ?_⟩
    have h := first_band_formula ((i : ℝ) - 300)
    have e1 : ((i : ℝ) - 300 + 300) / 1200 = (i : ℝ) / 1200 := by ring
    have e2 : ((i : ℝ) - 300 - 6900) / 1200 = ((i : ℝ) - 7200) / 1200 := by ring
    rw [e1, e2] at h
    exact h
  · intro n hn
    have hn_r : (n : ℝ) < 900 := by exact_mod_cast hn
    have hrep : toFluidReal ((n : ℝ) + 300) = (n : ℝ) + 300 := by
      have hsum : (n : ℝ) + 300 = ((n + 300 : Nat) : ℝ) := by push_cast; ring
      rw [hsum]
      exact toFluidReal_natCast _ (by omega)
    rw [first_band_exact peak (n : ℝ) (Nat.cast_nonneg n) hn_r hrep, Int.floor_natCast]
    norm_num

/-- C18, witness: 0 cents gives `440 * 2 ^ (-6900 / 1200)` through the first
band, 6900 cents gives 440 Hz, and -1 cents gives 1.0. -/
theorem ct2hz_real_closed_form_witness :
    fluid_ct2hz_real (builtTables FLUID_PEAK_ATTENUATION) ((0 : Nat) : ℝ) =
      some (440 * (2 : ℝ) ^ ((((0 : Nat) : ℝ) - 6900) / 1200)) ∧
    fluid_ct2hz_real (builtTables FLUID_PEAK_ATTENUATION) 6900 = some 440 ∧
    fluid_ct2hz_real (builtTables FLUID_PEAK_ATTENUATION) (-1) = some 1 := by
  refine ⟨(ct2hz_real_closed_form FLUID_PEAK_ATTENUATION 0).2.2.2.2 0 (by norm_num), ?_,
    (ct2hz_real_closed_form FLUID_PEAK_ATTENUATION (-1)).2.1 (by norm_num)⟩
  rw [(ct2hz_real_closed_form FLUID_PEAK_ATTENUATION 6900).1 (by norm_num) (by norm_num)]
  have hfl : ⌊(6900 : ℝ)⌋ = 6900 := by simp
  rw [hfl]
  simp

/-! ## The two curves against each other -/

/-- C19: the two curves are mirror complements.  After
`fluid_conversion_config`, for every integer `i` in `0..127`,
`convex(i) + concave(127 - i) = 1`.  Every one of the 128 entries of each table
is written by the builder: from any state `s` of the declared sizes, entry `j`
of each table after the builder is a value that does not depend on `s`, the
pinned 0 and 1 at the ends, `1 - x` (convex) and `x` at `127 - j` (concave)
inside. -/
theorem curves_mirror (peak : ℝ) (i j : Nat) (s : ConvTables ℝ) :
    (i ≤ 127 → ∃ a b : ℝ, fluid_convex (builtTables peak) (i : ℝ) = some a ∧
      fluid_concave (builtTables peak) (127 - (i : ℝ)) = some b ∧ a + b = 1) ∧
    (WellSized s → j < 128 →
      (fluid_conversion_config peak s).fluid_convex_tab[j]? =
        some (if j = 0 then 0 else if j = 127 then 1 else 1 - curve_x peak j) ∧
      (fluid_conversion_config peak s).fluid_concave_tab[j]? =
        some (if j = 0 then 0 else if j = 127 then 1 else curve_x peak (127 - j))) := by
  constructor
  · intro hi
    have hi_r : (i : ℝ) ≤ 127 := by exact_mod_cast hi
    obtain ⟨k, hk, hflk, _, hcv⟩ :=
      curves_value peak (i : ℝ) (Nat.cast_nonneg i) (by linarith)
    obtain ⟨m, hm, hflm, hcc, _⟩ :=
      curves_value peak (127 - (i : ℝ)) (by linarith)
        (by linarith [(Nat.cast_nonneg i : (0 : ℝ) ≤ (i : ℝ))])
    have hk_eq : k = i := by
      have h1 : ⌊(i : ℝ)⌋ = (i : Int) := Int.floor_natCast i
      omega
    have hm_eq : m = 127 - i := by
      have h1 : (127 : ℝ) - (i : ℝ) = (((127 - i : Nat)) : ℝ) := by
        rw [Nat.cast_sub hi]
        norm_num
      have h2 : ⌊(127 : ℝ) - (i : ℝ)⌋ = ((127 - i : Nat) : Int) := by
        rw [h1]
        exact Int.floor_natCast _
      omega
    subst hk_eq
    refine ⟨_, _, hcv, hcc, ?_⟩
    rw [hm_eq]
    by_cases h0 : k = 0
    · subst h0
      simp
    · by_cases h127 : k = 127
      · subst h127
        simp
      · have h1 : ¬ 127 - k = 0 := by omega
        have h2 : ¬ 127 - k = 127 := by omega
        have h3 : 127 - (127 - k) = k := by omega
        rw [if_neg h0, if_neg h127, if_neg h1, if_neg h2, h3]
        ring
  · intro hs hj
    exact ⟨config_convex_tab peak s hs.2.2.2.1 j hj, config_concave_tab peak s hs.2.2.1 j hj⟩

/-- C19, witness: `convex(1) + concave(126) = 1` on the tables built for the
engine's peak attenuation, and entry 1 of each table built from the
zero-initialised state. -/
theorem curves_mirror_witness :
    (∃ a b : ℝ, fluid_convex (builtTables FLUID_PEAK_ATTENUATION) ((1 : Nat) : ℝ) = some a ∧
      fluid_concave (builtTables FLUID_PEAK_ATTENUATION) (127 - ((1 : Nat) : ℝ)) = some b ∧
      a + b = 1) ∧
    (fluid_conversion_config FLUID_PEAK_ATTENUATION (initTables ℝ)).fluid_convex_tab[1]? =
      some (1 - curve_x FLUID_PEAK_ATTENUATION 1) ∧
    (fluid_conversion_config FLUID_PEAK_ATTENUATION (initTables ℝ)).fluid_concave_tab[1]? =
      some (curve_x FLUID_PEAK_ATTENUATION 126) := by
  have h := curves_mirror FLUID_PEAK_ATTENUATION 1 1 (initTables ℝ)
  have h2 := h.2 (initTables_wellSized ℝ) (by norm_num)
  simp only [one_ne_zero, if_false, OfNat.one_ne_ofNat] at h2
  exact ⟨h.1 (by norm_num), h2.1, h2.2⟩

/-- C20: `fluid_concave` and `fluid_convex` are monotonically non-decreasing
over all real inputs for the peak attenuation `FLUID_PEAK_ATTENUATION = 960`,
with the tables built by `fluid_conversion_config`: for `v1 ≤ v2` both calls
of each function return a value and the first is at most the second, the steps
between the pinned boundary entries and the computed interior entries
included. -/
theorem curves_mono (v1 v2 : ℝ) (h : v1 ≤ v2) :
    (∃ a b : ℝ, fluid_concave (builtTables FLUID_PEAK_ATTENUATION) v1 = some a ∧
      fluid_concave (builtTables FLUID_PEAK_ATTENUATION) v2 = some b ∧ a ≤ b) ∧
    (∃ a b : ℝ, fluid_convex (builtTables FLUID_PEAK_ATTENUATION) v1 = some a ∧
      fluid_convex (builtTables FLUID_PEAK_ATTENUATION) v2 = some b ∧ a ≤ b) := by
  obtain ⟨a1, b1, ha1, hb1, ha1_0, ha1_1, hb1_0, hb1_1⟩ := curves_range v1
  obtain ⟨a2, b2, ha2, hb2, ha2_0, ha2_1, hb2_0, hb2_1⟩ := curves_range v2
  by_cases h0 : v1 < 0
  · have e1 := concave_neg (builtTables FLUID_PEAK_ATTENUATION) v1 h0
    have e2 := convex_neg (builtTables FLUID_PEAK_ATTENUATION) v1 h0
    exact ⟨⟨0, a2, e1, ha2, ha2_0⟩, ⟨0, b2, e2, hb2, hb2_0⟩⟩
  · by_cases h1 : 128 ≤ v2
    · have e1 := concave_large (builtTables FLUID_PEAK_ATTENUATION) v2 h1
      have e2 := convex_large (builtTables FLUID_PEAK_ATTENUATION) v2 h1
      exact ⟨⟨a1, 1, ha1, e1, ha1_1⟩, ⟨b1, 1, hb1, e2, hb1_1⟩⟩
    · have h0 : 0 ≤ v1 := not_lt.mp h0
      have h1 : v2 < 128 := not_le.mp h1
      obtain ⟨j, hj, hflj, hccj, hcvj⟩ :=
        curves_value FLUID_PEAK_ATTENUATION v1 h0 (by linarith)
      obtain ⟨k, hk, hflk, hcck, hcvk⟩ :=
        curves_value FLUID_PEAK_ATTENUATION v2 (by linarith) h1
      have hjk : j ≤ k := by
        have := Int.floor_mono h
        omega
      exact ⟨⟨_, _, hccj, hcck, concave_entry_mono j k hjk hk⟩,
        ⟨_, _, hcvj, hcvk, convex_entry_mono j k hjk hk⟩⟩

/-- C20, witness: from the pinned entry 0 (at `v1 = 0.5`) to the computed entry
1 (at `v2 = 1`). -/
theorem curves_mono_witness :
    (∃ a b : ℝ, fluid_concave (builtTables FLUID_PEAK_ATTENUATION) 0.5 = some a ∧
      fluid_concave (builtTables FLUID_PEAK_ATTENUATION) 1 = some b ∧ a ≤ b) ∧
    (∃ a b : ℝ, fluid_convex (builtTables FLUID_PEAK_ATTENUATION) 0.5 = some a ∧
      fluid_convex (builtTables FLUID_PEAK_ATTENUATION) 1 = some b ∧ a ≤ b) :=
  curves_mono 0.5 1 (by norm_num)

end FluidConv
